import Mathlib

/-!
Verification of the TypeWho keystroke-dynamics core
(`src/lib/typing-analysis.ts`: `calculateTypingPattern`, `comparePatterns`)
and its boundary guards (`src/api/server.ts`, `src/extension/popup.tsx`).

JavaScript numbers are modelled by `Js α`: either a finite value (`num`),
`NaN` (`nan`), `+Infinity` (`inf`) or `-Infinity` (`ninf`).  The feature
extractor is instantiated at `α = ℚ` (computable, so concrete runs can be
evaluated by `decide`); the similarity scorer, which uses `Math.sqrt`,
`Math.exp` and `Math.pow`, is instantiated at `α = ℝ`.  Floating-point
rounding is idealised (exact arithmetic), but the special values NaN and
Infinity — which drive the interesting edge cases — follow the IEEE rules
used by JavaScript, with the negative-zero distinction dropped (every
denominator in this code is a count or a sum of nonnegative inputs).
-/

namespace TypeWho

/- Batteries marks the `Rat` field operations `@[irreducible]`; re-allow
unfolding locally so that concrete runs of the (computable) model can be
checked by `decide`. -/
attribute [local semireducible] Rat.add Rat.sub Rat.mul Rat.inv Rat.ofScientific

/-- An idealised JavaScript number: a finite value, NaN, or ±Infinity. -/
inductive Js (α : Type) where
  | num (x : α)
  | nan
  | inf
  | ninf
deriving DecidableEq, Repr

namespace Js

variable {α : Type} [LinearOrderedField α]

/-- JavaScript `+`. -/
def add : Js α → Js α → Js α
  | nan, _ => nan
  | _, nan => nan
  | inf, ninf => nan
  | ninf, inf => nan
  | inf, _ => inf
  | _, inf => inf
  | ninf, _ => ninf
  | _, ninf => ninf
  | num a, num b => num (a + b)

/-- JavaScript `-` (binary). -/
def sub : Js α → Js α → Js α
  | nan, _ => nan
  | _, nan => nan
  | inf, inf => nan
  | ninf, ninf => nan
  | inf, _ => inf
  | _, inf => ninf
  | ninf, _ => ninf
  | _, ninf => inf
  | num a, num b => num (a - b)

/-- JavaScript unary `-`. -/
def neg : Js α → Js α
  | nan => nan
  | inf => ninf
  | ninf => inf
  | num a => num (-a)

/-- JavaScript `*`. -/
def mul : Js α → Js α → Js α
  | nan, _ => nan
  | _, nan => nan
  | inf, inf => inf
  | inf, ninf => ninf
  | ninf, inf => ninf
  | ninf, ninf => inf
  | inf, num b => if b = 0 then nan else if b < 0 then ninf else inf
  | num a, inf => if a = 0 then nan else if a < 0 then ninf else inf
  | ninf, num b => if b = 0 then nan else if b < 0 then inf else ninf
  | num a, ninf => if a = 0 then nan else if a < 0 then inf else ninf
  | num a, num b => num (a * b)

/-- JavaScript `/` (negative zero ignored: `0` behaves as `+0`). -/
def div : Js α → Js α → Js α
  | nan, _ => nan
  | _, nan => nan
  | inf, inf => nan
  | inf, ninf => nan
  | ninf, inf => nan
  | ninf, ninf => nan
  | inf, num b => if b < 0 then ninf else inf
  | ninf, num b => if b < 0 then inf else ninf
  | num _, inf => num 0
  | num _, ninf => num 0
  | num a, num b =>
      if b = 0 then (if a = 0 then nan else if a < 0 then ninf else inf)
      else num (a / b)

/-- JavaScript `Math.abs`. -/
def abs : Js α → Js α
  | nan => nan
  | inf => inf
  | ninf => inf
  | num a => num |a|

/-- JavaScript `Math.min` (NaN-propagating). -/
def jmin : Js α → Js α → Js α
  | nan, _ => nan
  | _, nan => nan
  | ninf, _ => ninf
  | _, ninf => ninf
  | inf, b => b
  | a, inf => a
  | num a, num b => num (min a b)

/-- JavaScript `Math.max` (NaN-propagating). -/
def jmax : Js α → Js α → Js α
  | nan, _ => nan
  | _, nan => nan
  | inf, _ => inf
  | _, inf => inf
  | ninf, b => b
  | a, ninf => a
  | num a, num b => num (max a b)

/-- JavaScript `<` as a boolean (false whenever either side is NaN). -/
def ltb : Js α → Js α → Bool
  | nan, _ => false
  | _, nan => false
  | inf, _ => false
  | _, inf => true
  | ninf, ninf => false
  | ninf, _ => true
  | _, ninf => false
  | num a, num b => a < b

/-- JavaScript `Math.pow (·, 2)` (used via `Math.pow(val - mean, 2)`). -/
def sq : Js α → Js α
  | nan => nan
  | inf => inf
  | ninf => inf
  | num a => num (a * a)

/-- Reinterpret an exact rational JavaScript value as a real one. -/
def toR : Js ℚ → Js ℝ
  | num q => num (q : ℝ)
  | nan => nan
  | inf => inf
  | ninf => ninf

/-- JavaScript `Math.sqrt`. -/
noncomputable def sqrt : Js ℝ → Js ℝ
  | num x => if x < 0 then nan else num (Real.sqrt x)
  | nan => nan
  | inf => inf
  | ninf => nan

/-- JavaScript `Math.pow (·, 0.5)` (differs from `Math.sqrt` at `-Infinity`). -/
noncomputable def powHalf : Js ℝ → Js ℝ
  | num x => if x < 0 then nan else num (Real.sqrt x)
  | nan => nan
  | inf => inf
  | ninf => inf

/-- JavaScript `Math.exp`. -/
noncomputable def exp : Js ℝ → Js ℝ
  | num x => num (Real.exp x)
  | nan => nan
  | inf => inf
  | ninf => num 0

end Js

/-- `KeyEvent` from `src/types.ts`; `modifiers` is the four boolean flags. -/
structure Modifiers where
  ctrl : Bool
  alt : Bool
  shift : Bool
  meta : Bool
deriving DecidableEq, Repr

/-- A captured key event.  `timestamp` and `timeSinceLast` are finite
JavaScript numbers produced by the capture surface (`Date.now()`
differences), modelled as exact rationals. -/
structure KeyEvent where
  key : String
  code : String
  timestamp : ℚ
  timeSinceLast : ℚ
  modifiers : Modifiers
deriving DecidableEq, Repr

/-- `TypingPattern` from `src/types.ts`.  Its maps are association lists in
JavaScript-object insertion order.  All numeric fields are `Js ℚ` except
`rhythmConsistency`, which is produced through `Math.sqrt` and therefore
lives in `Js ℝ`. -/
structure TypingPattern where
  averageSpeed : Js ℚ
  keyPressDistribution : List (String × ℚ)
  modifierUsage : List (String × ℚ)
  timingPatterns : List ℚ
  specialKeyFrequency : List (String × ℚ)
  backspaceFrequency : Js ℚ
  averageWordLength : Js ℚ
  rhythmConsistency : Js ℝ
  modifierFrequency : Js ℚ
  capitalFrequency : Js ℚ
  punctuationFrequency : Js ℚ
  burstSpeed : Js ℚ
  pauseFrequency : Js ℚ
  speedVariability : Js ℚ
  keyPressForce : Js ℚ
  errorRate : Js ℚ

/-- The initialiser of `pattern` at the top of `calculateTypingPattern`
(every numeric field 0, every map empty, `timingPatterns` empty). -/
def initialPattern : TypingPattern where
  averageSpeed := .num 0
  keyPressDistribution := []
  modifierUsage := []
  timingPatterns := []
  specialKeyFrequency := []
  backspaceFrequency := .num 0
  averageWordLength := .num 0
  rhythmConsistency := .num 0
  modifierFrequency := .num 0
  capitalFrequency := .num 0
  punctuationFrequency := .num 0
  burstSpeed := .num 0
  pauseFrequency := .num 0
  speedVariability := .num 0
  keyPressForce := .num 0
  errorRate := .num 0

/-- JavaScript object read `m[k] || d` on an association list. -/
def lookupD {α : Type} (m : List (String × α)) (k : String) (d : α) : α :=
  match m.find? (fun kv => kv.1 == k) with
  | some kv => kv.2
  | none => d

/-- JavaScript object write `m[k] = v`: updates the entry in place if the key
exists (preserving insertion order), otherwise appends it. -/
def upsert {α : Type} (m : List (String × α)) (k : String) (v : α) :
    List (String × α) :=
  if m.any (fun kv => kv.1 == k) then
    m.map (fun kv => if kv.1 == k then (k, v) else kv)
  else m ++ [(k, v)]

/-! ## Feature extractor (`calculateTypingPattern`, lines 24–162)

Each local of the source function is hoisted to a top-level definition
parameterised by the event list. -/

/-- `Math.floor` of a nonnegative number, as a natural index/count. -/
def floorNat (q : ℚ) : ℕ := q.floor.toNat

/-- Line 47: `events.slice(1).map((event, i) => event.timeSinceLast)`. -/
def intervalsOf (events : List KeyEvent) : List ℚ :=
  (events.drop 1).map (·.timeSinceLast)

/-- Line 51: `[...intervals].sort((a, b) => a - b)`. -/
def sortedIntervalsOf (events : List KeyEvent) : List ℚ :=
  (intervalsOf events).insertionSort (· ≤ ·)

/-- Line 52: `Math.floor(sortedIntervals.length * 0.1)`. -/
def trimAmountOf (events : List KeyEvent) : ℕ :=
  floorNat (((sortedIntervalsOf events).length : ℚ) * (0.1 : ℚ))

/-- Line 53: `sortedIntervals.slice(trimAmount, -trimAmount)`.  When
`trimAmount = 0` the end bound `-0` is numerically `0`, so the slice is
empty — this is the behaviour of the source, not a simplification. -/
def trimmedIntervalsOf (events : List KeyEvent) : List ℚ :=
  if trimAmountOf events = 0 then []
  else ((sortedIntervalsOf events).take
          ((sortedIntervalsOf events).length - trimAmountOf events)).drop
        (trimAmountOf events)

/-- Line 54: `trimmedIntervals.reduce((a, b) => a + b, 0) / trimmedIntervals.length`. -/
def averageSpeedOf (events : List KeyEvent) : Js ℚ :=
  Js.div (.num ((trimmedIntervalsOf events).foldl (· + ·) 0))
    (.num ((trimmedIntervalsOf events).length : ℚ))

/-- Line 58: `intervals.reduce((acc, val) => acc + Math.pow(val - mean, 2), 0)
/ intervals.length` where `mean = pattern.averageSpeed`. -/
def varianceOf (events : List KeyEvent) : Js ℚ :=
  Js.div
    ((intervalsOf events).foldl
      (fun acc val => Js.add acc (Js.sq (Js.sub (.num val) (averageSpeedOf events))))
      (.num 0))
    (.num ((intervalsOf events).length : ℚ))

/-- Line 59: `Math.sqrt(variance) / mean` (no divide-by-zero guard). -/
noncomputable def rhythmConsistencyOf (events : List KeyEvent) : Js ℝ :=
  Js.div (Js.sqrt (Js.toR (varianceOf events))) (Js.toR (averageSpeedOf events))

/-- Line 62: `sortedIntervals[Math.floor(sortedIntervals.length * 0.25)]`. -/
def q1Of (events : List KeyEvent) : ℚ :=
  (sortedIntervalsOf events).getD
    (floorNat (((sortedIntervalsOf events).length : ℚ) * (0.25 : ℚ))) 0

/-- Line 63: `sortedIntervals[Math.floor(sortedIntervals.length * 0.75)]`. -/
def q3Of (events : List KeyEvent) : ℚ :=
  (sortedIntervalsOf events).getD
    (floorNat (((sortedIntervalsOf events).length : ℚ) * (0.75 : ℚ))) 0

/-- Line 64: `(q3 - q1) / pattern.averageSpeed`. -/
def speedVariabilityOf (events : List KeyEvent) : Js ℚ :=
  Js.div (.num (q3Of events - q1Of events)) (averageSpeedOf events)

/-- Lines 67–68: fraction of intervals exceeding `averageSpeed * 2`
(a comparison against NaN is false, so a NaN threshold filters nothing). -/
def pauseFrequencyOf (events : List KeyEvent) : Js ℚ :=
  Js.div
    (.num (((intervalsOf events).filter
      (fun i => Js.ltb (Js.mul (averageSpeedOf events) (.num 2)) (.num i))).length : ℚ))
    (.num ((intervalsOf events).length : ℚ))

/-- Line 71: `Math.max(5, Math.floor(intervals.length * 0.2))`. -/
def windowSizeOf (events : List KeyEvent) : ℕ :=
  max 5 (floorNat (((intervalsOf events).length : ℚ) * (0.2 : ℚ)))

/-- The mean of the window of `windowSizeOf events` intervals starting at `i`
(line 74). -/
def windowAvgOf (events : List KeyEvent) (i : ℕ) : ℚ :=
  (((intervalsOf events).drop i).take (windowSizeOf events)).foldl (· + ·) 0 /
    (windowSizeOf events : ℚ)

/-- Lines 72–77: `minBurst` starts at `Infinity` and is `Math.min`-folded over
every window position; the loop body never runs when there are fewer
intervals than the window size, leaving `Infinity`. -/
def burstSpeedOf (events : List KeyEvent) : Js ℚ :=
  if (intervalsOf events).length < windowSizeOf events then Js.inf
  else
    (List.range ((intervalsOf events).length - windowSizeOf events + 1)).foldl
      (fun acc i => Js.jmin acc (.num (windowAvgOf events i))) Js.inf

/-- The accumulator of the single `events.forEach` pass (lines 79–126). -/
structure AccumState where
  wordBuffer : String
  wordLengths : List ℕ
  modifierCount : ℕ
  capitalCount : ℕ
  punctuationCount : ℕ
  backspaceCount : ℕ
  totalChars : ℕ
  keyDistribution : List (String × ℕ)
  modifierUsage : List (String × ℚ)
deriving Repr

def accumInit : AccumState :=
  { wordBuffer := ""
    wordLengths := []
    modifierCount := 0
    capitalCount := 0
    punctuationCount := 0
    backspaceCount := 0
    totalChars := 0
    keyDistribution := []
    modifierUsage := [] }

/-- `event.key.match(/[A-Z]/)` is truthy. -/
def hasUpper (key : String) : Bool :=
  key.data.any (fun c => 'A' ≤ c && c ≤ 'Z')

/-- `event.key.match(/[.,!?;:'"]/)` is truthy. -/
def hasPunct (key : String) : Bool :=
  key.data.any (fun c => ['.', ',', '!', '?', ';', ':', '\'', '"'].contains c)

/-- Lines 90–96 of the `events.forEach` body: modifier tracking. -/
def modifierPass (s : AccumState) (event : KeyEvent) : AccumState :=
  if event.modifiers.ctrl || event.modifiers.alt || event.modifiers.shift
      || event.modifiers.meta then
    let s1 : AccumState := { s with modifierCount := s.modifierCount + 1 }
    if 0 < event.timeSinceLast then
      { s1 with modifierUsage := upsert s1.modifierUsage event.key event.timeSinceLast }
    else s1
  else s

/-- Lines 98–118: single-character bookkeeping.  (`event.key === 'Enter'`
inside this branch is dead code — the string `"Enter"` has length 5 — but it
is kept for fidelity.) -/
def charPass (s : AccumState) (event : KeyEvent) : AccumState :=
  if event.key.length = 1 then
    let s1 : AccumState := { s with
      totalChars := s.totalChars + 1
      keyDistribution :=
        upsert s.keyDistribution event.key (lookupD s.keyDistribution event.key 0 + 1) }
    let s2 : AccumState :=
      if hasUpper event.key then { s1 with capitalCount := s1.capitalCount + 1 } else s1
    let s3 : AccumState :=
      if hasPunct event.key then { s2 with punctuationCount := s2.punctuationCount + 1 }
      else s2
    if event.key = " " ∨ event.key = "Enter" then
      if 0 < s3.wordBuffer.length then
        { s3 with wordLengths := s3.wordLengths ++ [s3.wordBuffer.length], wordBuffer := "" }
      else s3
    else { s3 with wordBuffer := s3.wordBuffer ++ event.key }
  else s

/-- Lines 120–125: backspace handling. -/
def backspacePass (s : AccumState) (event : KeyEvent) : AccumState :=
  if event.key = "Backspace" then
    let s1 : AccumState := { s with backspaceCount := s.backspaceCount + 1 }
    if 0 < s1.wordBuffer.length then { s1 with wordBuffer := s1.wordBuffer.dropRight 1 }
    else s1
  else s

/-- One iteration of the `events.forEach` body (lines 88–126): the three
blocks run in sequence on the same accumulator. -/
def accumStep (s : AccumState) (event : KeyEvent) : AccumState :=
  backspacePass (charPass (modifierPass s event) event) event

def accumOf (events : List KeyEvent) : AccumState :=
  events.foldl accumStep accumInit

/-- Lines 129–131: flush the final word buffer. -/
def wordLengthsOf (events : List KeyEvent) : List ℕ :=
  if 0 < (accumOf events).wordBuffer.length then
    (accumOf events).wordLengths ++ [(accumOf events).wordBuffer.length]
  else (accumOf events).wordLengths

/-- Line 134: `Object.values(keyDistribution).reduce((a, b) => a + b, 0)`. -/
def totalKeyPressesOf (events : List KeyEvent) : ℕ :=
  ((accumOf events).keyDistribution.map (·.2)).foldl (· + ·) 0

/-- Lines 137–142: Laplace smoothing with `alpha = 0.1` over the raw counts
(`vocabSize` is the number of distinct observed characters, line 136). -/
def keyPressDistributionOf (events : List KeyEvent) : List (String × ℚ) :=
  (accumOf events).keyDistribution.map fun kv =>
    (kv.1,
      ((kv.2 : ℚ) + 0.1) /
        ((totalKeyPressesOf events : ℚ) +
          0.1 * ((accumOf events).keyDistribution.length : ℚ)))

/-- Lines 145–146: `backspaceCount / (totalChars + backspaceCount)` (no
guard) scaled by `1 + speedVariability`. -/
def errorRateOf (events : List KeyEvent) : Js ℚ :=
  Js.mul
    (Js.div (.num ((accumOf events).backspaceCount : ℚ))
      (.num (((accumOf events).totalChars + (accumOf events).backspaceCount : ℕ) : ℚ)))
    (Js.add (.num 1) (speedVariabilityOf events))

/-- Lines 149–154: trimmed mean of the completed word lengths.  Note the
source guards the degenerate slice here (`-trimCount || undefined`), unlike
line 53. -/
def averageWordLengthOf (events : List KeyEvent) : Js ℚ :=
  if 0 < (wordLengthsOf events).length then
    let sorted := (wordLengthsOf events).insertionSort (· ≤ ·)
    let trimCount := floorNat ((sorted.length : ℚ) * (0.1 : ℚ))
    let trimmed :=
      if trimCount = 0 then sorted
      else (sorted.take (sorted.length - trimCount)).drop trimCount
    Js.div (.num ((trimmed.foldl (· + ·) 0 : ℕ) : ℚ)) (.num (trimmed.length : ℚ))
  else .num 0

/-- Line 156 (`events.length > 0` ternary guard). -/
def modifierFrequencyOf (events : List KeyEvent) : Js ℚ :=
  if 0 < events.length then
    .num (((accumOf events).modifierCount : ℚ) / (events.length : ℚ))
  else .num 0

/-- Line 157. -/
def capitalFrequencyOf (events : List KeyEvent) : Js ℚ :=
  if 0 < (accumOf events).totalChars then
    .num (((accumOf events).capitalCount : ℚ) / ((accumOf events).totalChars : ℚ))
  else .num 0

/-- Line 158. -/
def punctuationFrequencyOf (events : List KeyEvent) : Js ℚ :=
  if 0 < (accumOf events).totalChars then
    .num (((accumOf events).punctuationCount : ℚ) / ((accumOf events).totalChars : ℚ))
  else .num 0

/-- Line 159: the denominator is `totalChars` only — backspaces are *not*
counted in it. -/
def backspaceFrequencyOf (events : List KeyEvent) : Js ℚ :=
  if 0 < (accumOf events).totalChars then
    .num (((accumOf events).backspaceCount : ℚ) / ((accumOf events).totalChars : ℚ))
  else .num 0

/-- `calculateTypingPattern` (lines 24–162). -/
noncomputable def calculateTypingPattern (events : List KeyEvent) : TypingPattern :=
  if events.length < 2 then initialPattern
  else
    { averageSpeed := averageSpeedOf events
      keyPressDistribution := keyPressDistributionOf events
      modifierUsage := (accumOf events).modifierUsage
      timingPatterns := intervalsOf events
      specialKeyFrequency := []
      backspaceFrequency := backspaceFrequencyOf events
      averageWordLength := averageWordLengthOf events
      rhythmConsistency := rhythmConsistencyOf events
      modifierFrequency := modifierFrequencyOf events
      capitalFrequency := capitalFrequencyOf events
      punctuationFrequency := punctuationFrequencyOf events
      burstSpeed := burstSpeedOf events
      pauseFrequency := pauseFrequencyOf events
      speedVariability := speedVariabilityOf events
      keyPressForce := .num 0
      errorRate := errorRateOf events }

/-! ## Basic reduction lemmas for the JavaScript-number operations -/

namespace Js

variable {α : Type} [LinearOrderedField α]

@[simp] theorem add_num (a b : α) : add (num a) (num b) = num (a + b) := rfl
@[simp] theorem sub_num (a b : α) : sub (num a) (num b) = num (a - b) := rfl
@[simp] theorem mul_num (a b : α) : mul (num a) (num b) = num (a * b) := rfl
@[simp] theorem neg_num (a : α) : neg (num a) = num (-a) := rfl
@[simp] theorem abs_num (a : α) : abs (num a) = num |a| := rfl
@[simp] theorem sq_num (a : α) : sq (num a) = num (a * a) := rfl
@[simp] theorem jmin_num (a b : α) : jmin (num a) (num b) = num (min a b) := rfl
@[simp] theorem jmax_num (a b : α) : jmax (num a) (num b) = num (max a b) := rfl

theorem div_num {b : α} (a : α) (hb : b ≠ 0) :
    div (num a) (num b) = num (a / b) := by
  simp [div, hb]

@[simp] theorem div_num_zero_zero : div (num (0 : α)) (num 0) = nan := by
  simp [div]

@[simp] theorem nan_add (x : Js α) : add nan x = nan := by cases x <;> rfl
@[simp] theorem add_nan (x : Js α) : add x nan = nan := by cases x <;> rfl
@[simp] theorem nan_sub (x : Js α) : sub nan x = nan := by cases x <;> rfl
@[simp] theorem sub_nan (x : Js α) : sub x nan = nan := by cases x <;> rfl
@[simp] theorem nan_mul (x : Js α) : mul nan x = nan := by cases x <;> rfl
@[simp] theorem mul_nan (x : Js α) : mul x nan = nan := by cases x <;> rfl
@[simp] theorem nan_div (x : Js α) : div nan x = nan := by cases x <;> rfl
@[simp] theorem div_nan (x : Js α) : div x nan = nan := by cases x <;> rfl
@[simp] theorem abs_nan : abs (nan : Js α) = nan := rfl
@[simp] theorem neg_nan : neg (nan : Js α) = nan := rfl
@[simp] theorem sq_nan : sq (nan : Js α) = nan := rfl
@[simp] theorem nan_jmin (x : Js α) : jmin nan x = nan := by cases x <;> rfl
@[simp] theorem jmin_nan (x : Js α) : jmin x nan = nan := by cases x <;> rfl
@[simp] theorem nan_jmax (x : Js α) : jmax nan x = nan := by cases x <;> rfl
@[simp] theorem jmax_nan (x : Js α) : jmax x nan = nan := by cases x <;> rfl
@[simp] theorem inf_jmin (x : Js α) : jmin inf x = x := by cases x <;> rfl

@[simp] theorem toR_num (q : ℚ) : toR (num q) = num (q : ℝ) := rfl
@[simp] theorem toR_nan : toR nan = nan := rfl
@[simp] theorem toR_inf : toR inf = inf := rfl

@[simp] theorem sqrt_nan : sqrt nan = nan := rfl
@[simp] theorem powHalf_nan : powHalf nan = nan := rfl
@[simp] theorem exp_num (x : ℝ) : exp (num x) = num (Real.exp x) := rfl

theorem sqrt_num {x : ℝ} (hx : 0 ≤ x) : sqrt (num x) = num (Real.sqrt x) := by
  simp [sqrt, not_lt.mpr hx]

theorem powHalf_num {x : ℝ} (hx : 0 ≤ x) : powHalf (num x) = num (Real.sqrt x) := by
  simp [powHalf, not_lt.mpr hx]

theorem ltb_num (a b : α) : ltb (num a) (num b) = decide (a < b) := rfl

end Js

/-! ## Concrete inputs used in the counterexamples and evaluations -/

/-- A plain key press with no modifier flags. -/
def plainEvent (k : String) (t : ℚ) : KeyEvent :=
  { key := k, code := k, timestamp := 0, timeSinceLast := t,
    modifiers := { ctrl := false, alt := false, shift := false, meta := false } }

/-- Three key presses 100 ms apart: two intervals, so the 10% trim amount is
0 and `slice(0, -0)` empties the interval list. -/
def threeEvents : List KeyEvent :=
  [plainEvent "a" 0, plainEvent "b" 100, plainEvent "c" 100]

/-- Eleven simultaneous `Shift` presses: enough intervals for the trim to be
nonzero, every interval 0 (so the trimmed mean is exactly 0), and no
single-character or `Backspace` key at all. -/
def elevenShiftEvents : List KeyEvent :=
  List.replicate 11 (plainEvent "Shift" 0)

/-! ## Claims C2, C4, C3 -/

/-- **C2.** `calculateTypingPattern` never fails on any input: for every
`KeyEvent` sequence of length less than 2 it returns the all-zero default
`TypingPattern` (every numeric field 0, every map empty, `timingPatterns`
empty) — the early return of line 44. -/
theorem claim_C2 (events : List KeyEvent) (h : events.length < 2) :
    calculateTypingPattern events = initialPattern := by
  unfold calculateTypingPattern
  rw [if_pos h]

theorem claim_C2_witness :
    ([plainEvent "a" 0].length < 2) ∧
      calculateTypingPattern [plainEvent "a" 0] = initialPattern :=
  ⟨by decide, claim_C2 [plainEvent "a" 0] (by decide)⟩

/-- **C4** (code bug at line 53).  The claim states that for every sequence
of at least two events the 10% trim never removes more than the available
elements, so the trimmed interval set is non-empty and `averageSpeed` is a
well-defined finite number.  In the code, for any event count in `2..10` the
trim amount is 0 and `sortedIntervals.slice(0, -0)` is the *empty* array
(JavaScript's `-0` is numerically `0`), so `averageSpeed = 0/0 = NaN`.
This theorem evaluates the code at a failing input: three events 100 ms
apart. -/
theorem claim_C4 :
    trimmedIntervalsOf threeEvents = [] ∧
      (calculateTypingPattern threeEvents).averageSpeed = Js.nan := by
  constructor
  · decide
  · have h2 : ¬ threeEvents.length < 2 := by decide
    unfold calculateTypingPattern
    rw [if_neg h2]
    decide

/-- **C3** (code bug at lines 59 and 145).  The claim states that every
ratio-style field is guarded against division by zero — in particular that
`rhythmConsistency` is 0 when the mean interval is 0, and `errorRate` is 0
when there are no single-character events and no backspaces.  The code has
no such guards: on eleven simultaneous `Shift` presses the trimmed mean is
exactly 0 and `rhythmConsistency = Math.sqrt(0) / 0 = NaN`, and (with no
single characters and no backspaces) `errorRate = 0 / 0 * (1 + 0) = NaN` —
not 0 as the claim requires. -/
theorem claim_C3 :
    (calculateTypingPattern elevenShiftEvents).rhythmConsistency = Js.nan ∧
      (calculateTypingPattern elevenShiftEvents).errorRate = Js.nan := by
  have h2 : ¬ elevenShiftEvents.length < 2 := by decide
  have hmean : averageSpeedOf elevenShiftEvents = Js.num 0 := by decide
  have hvar : varianceOf elevenShiftEvents = Js.num 0 := by decide
  constructor
  · unfold calculateTypingPattern
    rw [if_neg h2]
    show rhythmConsistencyOf elevenShiftEvents = Js.nan
    unfold rhythmConsistencyOf
    rw [hmean, hvar]
    simp [Js.sqrt_num le_rfl]
  · unfold calculateTypingPattern
    rw [if_neg h2]
    decide

/-! ## Accumulator invariants -/

theorem modifierPass_counts (s : AccumState) (e : KeyEvent) :
    (modifierPass s e).totalChars = s.totalChars ∧
    (modifierPass s e).capitalCount = s.capitalCount ∧
    (modifierPass s e).punctuationCount = s.punctuationCount ∧
    (modifierPass s e).backspaceCount = s.backspaceCount ∧
    (modifierPass s e).keyDistribution = s.keyDistribution := by
  unfold modifierPass
  dsimp only
  repeat' split
  all_goals simp

theorem backspacePass_counts (s : AccumState) (e : KeyEvent) :
    (backspacePass s e).totalChars = s.totalChars ∧
    (backspacePass s e).capitalCount = s.capitalCount ∧
    (backspacePass s e).punctuationCount = s.punctuationCount ∧
    (backspacePass s e).modifierCount = s.modifierCount ∧
    (backspacePass s e).keyDistribution = s.keyDistribution := by
  unfold backspacePass
  dsimp only
  repeat' split
  all_goals simp

theorem charPass_counts (s : AccumState) (e : KeyEvent) :
    (charPass s e).modifierCount = s.modifierCount ∧
    (charPass s e).backspaceCount = s.backspaceCount := by
  unfold charPass
  dsimp only
  repeat' split
  all_goals simp

theorem modifierPass_modifierCount_le (s : AccumState) (e : KeyEvent) :
    (modifierPass s e).modifierCount ≤ s.modifierCount + 1 := by
  unfold modifierPass
  dsimp only
  repeat' split
  all_goals simp

theorem charPass_totalChars (s : AccumState) (e : KeyEvent) :
    (charPass s e).totalChars = s.totalChars + (if e.key.length = 1 then 1 else 0) := by
  unfold charPass
  dsimp only
  repeat' split
  all_goals simp_all

theorem charPass_keyDistribution (s : AccumState) (e : KeyEvent) :
    (charPass s e).keyDistribution =
      if e.key.length = 1 then
        upsert s.keyDistribution e.key (lookupD s.keyDistribution e.key 0 + 1)
      else s.keyDistribution := by
  unfold charPass
  dsimp only
  repeat' split
  all_goals simp_all

theorem charPass_capital_le (s : AccumState) (e : KeyEvent)
    (h : s.capitalCount ≤ s.totalChars) :
    (charPass s e).capitalCount ≤ (charPass s e).totalChars := by
  unfold charPass
  dsimp only
  repeat' split
  all_goals simp_all
  all_goals omega

theorem charPass_punct_le (s : AccumState) (e : KeyEvent)
    (h : s.punctuationCount ≤ s.totalChars) :
    (charPass s e).punctuationCount ≤ (charPass s e).totalChars := by
  unfold charPass
  dsimp only
  repeat' split
  all_goals simp_all
  all_goals omega

theorem accumStep_totalChars (s : AccumState) (e : KeyEvent) :
    (accumStep s e).totalChars = s.totalChars + (if e.key.length = 1 then 1 else 0) := by
  unfold accumStep
  rw [(backspacePass_counts _ _).1, charPass_totalChars, (modifierPass_counts _ _).1]

theorem accumStep_modifierCount_le (s : AccumState) (e : KeyEvent) :
    (accumStep s e).modifierCount ≤ s.modifierCount + 1 := by
  unfold accumStep
  rw [(backspacePass_counts _ _).2.2.2.1, (charPass_counts _ _).1]
  exact modifierPass_modifierCount_le s e

theorem accumStep_capital_le (s : AccumState) (e : KeyEvent)
    (h : s.capitalCount ≤ s.totalChars) :
    (accumStep s e).capitalCount ≤ (accumStep s e).totalChars := by
  unfold accumStep
  rw [(backspacePass_counts _ _).2.1, (backspacePass_counts _ _).1]
  exact charPass_capital_le _ e (by
    rw [(modifierPass_counts s e).2.1, (modifierPass_counts s e).1]; exact h)

theorem accumStep_punct_le (s : AccumState) (e : KeyEvent)
    (h : s.punctuationCount ≤ s.totalChars) :
    (accumStep s e).punctuationCount ≤ (accumStep s e).totalChars := by
  unfold accumStep
  rw [(backspacePass_counts _ _).2.2.1, (backspacePass_counts _ _).1]
  exact charPass_punct_le _ e (by
    rw [(modifierPass_counts s e).2.2.1, (modifierPass_counts s e).1]; exact h)

/-- Preservation of an invariant along the `forEach` fold. -/
theorem foldl_accumStep_inv {P : AccumState → Prop}
    (hstep : ∀ s e, P s → P (accumStep s e)) :
    ∀ (l : List KeyEvent) (s : AccumState), P s → P (l.foldl accumStep s) := by
  intro l
  induction l with
  | nil => intro s hs; exact hs
  | cons e l ih => intro s hs; exact ih (accumStep s e) (hstep s e hs)

theorem foldl_modifierCount_le :
    ∀ (l : List KeyEvent) (s : AccumState),
      (l.foldl accumStep s).modifierCount ≤ s.modifierCount + l.length := by
  intro l
  induction l with
  | nil => intro s; simp
  | cons e l ih =>
      intro s
      calc (l.foldl accumStep (accumStep s e)).modifierCount
          ≤ (accumStep s e).modifierCount + l.length := ih (accumStep s e)
        _ ≤ s.modifierCount + 1 + l.length := by
            have := accumStep_modifierCount_le s e; omega
        _ = s.modifierCount + (e :: l).length := by simp; omega

theorem accumOf_modifierCount_le (events : List KeyEvent) :
    (accumOf events).modifierCount ≤ events.length := by
  have := foldl_modifierCount_le events accumInit
  simpa [accumOf, accumInit] using this

theorem accumOf_capital_le (events : List KeyEvent) :
    (accumOf events).capitalCount ≤ (accumOf events).totalChars :=
  foldl_accumStep_inv (fun s e h => accumStep_capital_le s e h) events accumInit
    (by simp [accumInit])

theorem accumOf_punct_le (events : List KeyEvent) :
    (accumOf events).punctuationCount ≤ (accumOf events).totalChars :=
  foldl_accumStep_inv (fun s e h => accumStep_punct_le s e h) events accumInit
    (by simp [accumInit])

/-! ## Claim C10 -/

/-- A JavaScript value that is a finite number in the closed interval
`[0, 1]`. -/
def inUnitInterval (v : Js ℚ) : Prop := ∃ q : ℚ, v = .num q ∧ 0 ≤ q ∧ q ≤ 1

/-- One single character followed by two backspaces: `totalChars = 1`,
`backspaceCount = 2`. -/
def backspaceHeavyEvents : List KeyEvent :=
  [plainEvent "a" 0, plainEvent "Backspace" 100, plainEvent "Backspace" 100]

/-- **C10.** For every input, `modifierFrequency`, `capitalFrequency` and
`punctuationFrequency` lie in `[0, 1]` (each counted event also appears in
its denominator), but `backspaceFrequency` divides `backspaceCount` by the
single-character count only (line 159), so an input with more `Backspace`
presses than single-character presses yields `backspaceFrequency > 1`. -/
theorem claim_C10 :
    (∀ events : List KeyEvent,
      inUnitInterval (calculateTypingPattern events).modifierFrequency ∧
      inUnitInterval (calculateTypingPattern events).capitalFrequency ∧
      inUnitInterval (calculateTypingPattern events).punctuationFrequency) ∧
    ((calculateTypingPattern backspaceHeavyEvents).backspaceFrequency = .num 2 ∧
      (1 : ℚ) < 2) := by
  constructor
  · intro events
    by_cases h2 : events.length < 2
    · unfold calculateTypingPattern
      rw [if_pos h2]
      refine ⟨⟨0, rfl, le_refl 0, by norm_num⟩, ⟨0, rfl, le_refl 0, by norm_num⟩,
        ⟨0, rfl, le_refl 0, by norm_num⟩⟩
    · unfold calculateTypingPattern
      rw [if_neg h2]
      refine ⟨?_, ?_, ?_⟩
      · show inUnitInterval (modifierFrequencyOf events)
        unfold modifierFrequencyOf
        have hpos : 0 < events.length := by omega
        rw [if_pos hpos]
        refine ⟨_, rfl, by positivity, ?_⟩
        rw [div_le_one (by positivity)]
        exact_mod_cast accumOf_modifierCount_le events
      · show inUnitInterval (capitalFrequencyOf events)
        unfold capitalFrequencyOf
        by_cases htc : 0 < (accumOf events).totalChars
        · rw [if_pos htc]
          refine ⟨_, rfl, by positivity, ?_⟩
          rw [div_le_one (by exact_mod_cast htc)]
          exact_mod_cast accumOf_capital_le events
        · rw [if_neg htc]
          exact ⟨0, rfl, le_refl 0, by norm_num⟩
      · show inUnitInterval (punctuationFrequencyOf events)
        unfold punctuationFrequencyOf
        by_cases htc : 0 < (accumOf events).totalChars
        · rw [if_pos htc]
          refine ⟨_, rfl, by positivity, ?_⟩
          rw [div_le_one (by exact_mod_cast htc)]
          exact_mod_cast accumOf_punct_le events
        · rw [if_neg htc]
          exact ⟨0, rfl, le_refl 0, by norm_num⟩
  · constructor
    · have h2 : ¬ backspaceHeavyEvents.length < 2 := by decide
      unfold calculateTypingPattern
      rw [if_neg h2]
      decide
    · norm_num

/-! ## Key-distribution bookkeeping (for C5) -/

/-- Sum of the natural-number values of an association list. -/
def valsum (m : List (String × ℕ)) : ℕ := (m.map (·.2)).sum

/-- Sum of the rational values of an association list (the sum the spec
talks about when it says the distribution "sums to 1"). -/
def sumValues (m : List (String × ℚ)) : ℚ := (m.map (·.2)).sum

theorem foldl_add_eq_sum (l : List ℕ) : l.foldl (· + ·) 0 = l.sum := by
  induction l <;> simp_all [List.sum_eq_foldl]

theorem upsert_cons_ne {α : Type} {a k : String} (hak : ¬ a = k)
    (c : α) (rest : List (String × α)) (v : α) :
    upsert ((a, c) :: rest) k v = (a, c) :: upsert rest k v := by
  by_cases h : rest.any (fun kv => kv.1 == k) <;>
    simp [upsert, h, hak]

theorem map_upsert_id {α : Type} {k : String} (v : α) :
    ∀ rest : List (String × α), k ∉ rest.map (·.1) →
      rest.map (fun kv => if kv.1 == k then (k, v) else kv) = rest := by
  intro rest
  induction rest with
  | nil => intro _; rfl
  | cons x xs ih =>
      intro h
      simp only [List.map_cons, List.mem_cons, not_or] at h
      have hx : ¬ x.1 = k := fun hh => h.1 hh.symm
      rw [List.map_cons, ih h.2]
      simp [hx]

theorem upsert_cons_eq {α : Type} {k : String} (c : α)
    (rest : List (String × α)) (v : α) (hk : k ∉ rest.map (·.1)) :
    upsert ((k, c) :: rest) k v = (k, v) :: rest := by
  have hany : ((k, c) :: rest).any (fun kv => kv.1 == k) = true := by simp
  unfold upsert
  rw [if_pos hany, List.map_cons, map_upsert_id v rest hk]
  norm_num

theorem lookupD_cons_eq {α : Type} {k : String} (c : α)
    (rest : List (String × α)) (d : α) :
    lookupD ((k, c) :: rest) k d = c := by
  unfold lookupD
  rw [List.find?_cons_of_pos _ (by simp)]

theorem lookupD_cons_ne {α : Type} {a k : String} (hak : ¬ a = k) (c : α)
    (rest : List (String × α)) (d : α) :
    lookupD ((a, c) :: rest) k d = lookupD rest k d := by
  unfold lookupD
  rw [List.find?_cons_of_neg _ (by simp [hak])]

theorem keys_upsert {α : Type} (k : String) (v : α) :
    ∀ m : List (String × α),
      (upsert m k v).map (·.1) =
        if m.any (fun kv => kv.1 == k) then m.map (·.1) else m.map (·.1) ++ [k] := by
  intro m
  by_cases h : m.any (fun kv => kv.1 == k) = true
  · rw [if_pos h]
    unfold upsert
    rw [if_pos h, List.map_map]
    apply List.map_congr_left
    intro kv _
    by_cases hk : kv.1 = k <;> simp [hk]
  · rw [if_neg h]
    unfold upsert
    rw [if_neg h]
    simp

theorem nodup_keys_upsert {α : Type} (k : String) (v : α)
    (m : List (String × α)) (h : (m.map (·.1)).Nodup) :
    ((upsert m k v).map (·.1)).Nodup := by
  rw [keys_upsert]
  by_cases hany : m.any (fun kv => kv.1 == k) = true
  · rw [if_pos hany]; exact h
  · rw [if_neg hany]
    rw [List.nodup_append]
    refine ⟨h, List.nodup_singleton k, ?_⟩
    intro a ha hb
    simp only [List.mem_singleton] at hb
    subst hb
    simp only [List.any_eq_true, beq_iff_eq, not_exists, not_and] at hany
    obtain ⟨kv, hkv, hfst⟩ := List.mem_map.mp ha
    exact hany kv hkv hfst

theorem valsum_upsert (k : String) :
    ∀ m : List (String × ℕ), (m.map (·.1)).Nodup →
      valsum (upsert m k (lookupD m k 0 + 1)) = valsum m + 1 := by
  intro m
  induction m with
  | nil => intro _; simp [upsert, lookupD, valsum]
  | cons x xs ih =>
      intro h
      obtain ⟨a, c⟩ := x
      simp only [List.map_cons, List.nodup_cons] at h
      by_cases hak : a = k
      · subst hak
        rw [lookupD_cons_eq, upsert_cons_eq _ _ _ h.1]
        simp only [valsum, List.map_cons, List.sum_cons]
        omega
      · rw [lookupD_cons_ne hak, upsert_cons_ne hak]
        have := ih h.2
        simp only [valsum, List.map_cons, List.sum_cons] at this ⊢
        omega

/-- The distribution counts always sum to `totalChars`, and the observed
keys are distinct. -/
theorem accumOf_keyDistribution (events : List KeyEvent) :
    valsum (accumOf events).keyDistribution = (accumOf events).totalChars ∧
      ((accumOf events).keyDistribution.map (·.1)).Nodup := by
  have hstep : ∀ s e,
      (valsum s.keyDistribution = s.totalChars ∧ (s.keyDistribution.map (·.1)).Nodup) →
      (valsum (accumStep s e).keyDistribution = (accumStep s e).totalChars ∧
        ((accumStep s e).keyDistribution.map (·.1)).Nodup) := by
    intro s e hP
    have hdist : (accumStep s e).keyDistribution =
        if e.key.length = 1 then
          upsert s.keyDistribution e.key (lookupD s.keyDistribution e.key 0 + 1)
        else s.keyDistribution := by
      unfold accumStep
      rw [(backspacePass_counts _ _).2.2.2.2, charPass_keyDistribution,
        (modifierPass_counts _ _).2.2.2.2]
    have htc := accumStep_totalChars s e
    by_cases hk : e.key.length = 1
    · rw [hdist, if_pos hk, htc, if_pos hk]
      exact ⟨by rw [valsum_upsert e.key s.keyDistribution hP.2, hP.1],
        nodup_keys_upsert _ _ _ hP.2⟩
    · rw [hdist, if_neg hk, htc, if_neg hk]
      exact ⟨by rw [hP.1]; omega, hP.2⟩
  exact @foldl_accumStep_inv
    (fun s => valsum s.keyDistribution = s.totalChars ∧ (s.keyDistribution.map (·.1)).Nodup)
    hstep events accumInit ⟨by simp [accumInit, valsum], by simp [accumInit]⟩

theorem accumOf_totalChars (events : List KeyEvent) :
    (accumOf events).totalChars = events.countP (fun e => e.key.length == 1) := by
  suffices h : ∀ (l : List KeyEvent) (s : AccumState),
      (l.foldl accumStep s).totalChars = s.totalChars + l.countP (fun e => e.key.length == 1) by
    have := h events accumInit
    simpa [accumOf, accumInit] using this
  intro l
  induction l with
  | nil => intro s; simp
  | cons e l ih =>
      intro s
      rw [List.foldl_cons, ih, accumStep_totalChars, List.countP_cons]
      by_cases hk : e.key.length = 1
      · simp [hk]
        omega
      · simp [hk]

/-- Summing the Laplace-smoothed entries over a common denominator. -/
theorem sum_smoothed (D : ℚ) :
    ∀ l : List (String × ℕ),
      sumValues (l.map fun kv => (kv.1, ((kv.2 : ℚ) + 0.1) / D)) =
        ((valsum l : ℚ) + 0.1 * l.length) / D := by
  intro l
  induction l with
  | nil => simp [sumValues, valsum]
  | cons x xs ih =>
      simp only [List.map_cons, sumValues, List.sum_cons, valsum] at ih ⊢
      rw [ih, div_add_div_same]
      congr 1
      simp only [List.length_cons]
      push_cast
      ring

/-! ## Claim C5 -/

/-- A lone single-character key press (one event only). -/
def singleCharEvent : List KeyEvent := [plainEvent "a" 0]

/-- **C5** fails as stated: a sequence *containing a single-character key
press* but with fewer than 2 events hits the early return of line 44, so
`keyPressDistribution` is empty and its values sum to 0, not 1. -/
theorem claim_C5_counterexample :
    (∃ e ∈ singleCharEvent, e.key.length = 1) ∧
      sumValues (calculateTypingPattern singleCharEvent).keyPressDistribution ≠ 1 := by
  constructor
  · exact ⟨plainEvent "a" 0, by decide, by decide⟩
  · unfold calculateTypingPattern
    rw [if_pos (by decide : singleCharEvent.length < 2)]
    decide

/-- **C5 (amended).** For every `KeyEvent` sequence with at least 2 events
and at least one single-character key press, `keyPressDistribution` (the
Laplace smoothing of lines 133–142 with parameter 0.1) has values that sum
to exactly 1 over the distinct single-character keys observed. -/
theorem claim_C5_amended (events : List KeyEvent) (h2 : 2 ≤ events.length)
    (hc : ∃ e ∈ events, e.key.length = 1) :
    sumValues (calculateTypingPattern events).keyPressDistribution = 1 := by
  have hlt : ¬ events.length < 2 := by omega
  unfold calculateTypingPattern
  rw [if_neg hlt]
  show sumValues (keyPressDistributionOf events) = 1
  have hdist := accumOf_keyDistribution events
  have htc : 0 < (accumOf events).totalChars := by
    rw [accumOf_totalChars]
    rw [List.countP_pos_iff]
    obtain ⟨e, he, hk⟩ := hc
    exact ⟨e, he, by simpa using hk⟩
  have hT : totalKeyPressesOf events = valsum (accumOf events).keyDistribution := by
    unfold totalKeyPressesOf valsum
    exact foldl_add_eq_sum _
  have hTpos : 0 < totalKeyPressesOf events := by
    rw [hT, hdist.1]; exact htc
  unfold keyPressDistributionOf
  rw [sum_smoothed]
  rw [← hT]
  have hD : ((totalKeyPressesOf events : ℚ) +
      0.1 * ((accumOf events).keyDistribution.length : ℚ)) ≠ 0 := by
    have h1 : (1 : ℚ) ≤ (totalKeyPressesOf events : ℚ) := by exact_mod_cast hTpos
    have h0 : (0 : ℚ) ≤ 0.1 * ((accumOf events).keyDistribution.length : ℚ) := by positivity
    nlinarith
  exact div_self hD

/-- Two distinct single-character presses 100 ms apart. -/
def twoCharEvents : List KeyEvent := [plainEvent "a" 0, plainEvent "b" 100]

theorem claim_C5_witness :
    (2 ≤ twoCharEvents.length ∧ ∃ e ∈ twoCharEvents, e.key.length = 1) ∧
      sumValues (calculateTypingPattern twoCharEvents).keyPressDistribution = 1 :=
  ⟨⟨by decide, ⟨plainEvent "a" 0, by decide, by decide⟩⟩,
    claim_C5_amended twoCharEvents (by decide)
      ⟨plainEvent "a" 0, by decide, by decide⟩⟩

/-! ## Sliding-window minimum (for C7) -/

/-- The sliding-window means the loop of lines 73–76 ranges over. -/
def windowMeansOf (events : List KeyEvent) : List ℚ :=
  (List.range ((intervalsOf events).length - windowSizeOf events + 1)).map
    (windowAvgOf events)

theorem foldl_jmin_num (f : ℕ → ℚ) :
    ∀ (l : List ℕ) (a : ℚ),
      l.foldl (fun acc i => Js.jmin acc (.num (f i))) (Js.num a) =
        Js.num (l.foldl (fun acc i => min acc (f i)) a) := by
  intro l
  induction l with
  | nil => intro a; rfl
  | cons x xs ih =>
      intro a
      rw [List.foldl_cons, List.foldl_cons, Js.jmin_num, ih]

theorem foldl_min_le_init : ∀ (l : List ℚ) (a : ℚ), l.foldl min a ≤ a := by
  intro l
  induction l with
  | nil => intro a; exact le_refl a
  | cons x xs ih =>
      intro a
      exact le_trans (ih (min a x)) (min_le_left a x)

theorem foldl_min_le_mem : ∀ (l : List ℚ) (a x : ℚ), x ∈ l → l.foldl min a ≤ x := by
  intro l
  induction l with
  | nil => intro a x hx; cases hx
  | cons y ys ih =>
      intro a x hx
      rcases List.mem_cons.mp hx with h | h
      · subst h
        exact le_trans (foldl_min_le_init ys (min a x)) (min_le_right a x)
      · exact ih (min a y) x h

theorem foldl_min_mem : ∀ (l : List ℚ) (a : ℚ), l.foldl min a ∈ a :: l := by
  intro l
  induction l with
  | nil => intro a; exact List.mem_singleton.mpr rfl
  | cons y ys ih =>
      intro a
      rcases List.mem_cons.mp (ih (min a y)) with h | h
      · rcases min_choice a y with hc | hc
        · exact List.mem_cons.mpr (Or.inl (h.trans hc))
        · exact List.mem_cons.mpr (Or.inr (List.mem_cons.mpr (Or.inl (h.trans hc))))
      · exact List.mem_cons.mpr (Or.inr (List.mem_cons.mpr (Or.inr h)))

/-- When at least one window fits, `burstSpeed` is a finite number and is
the minimum of the window means. -/
theorem burstSpeedOf_eq (events : List KeyEvent)
    (h : windowSizeOf events ≤ (intervalsOf events).length) :
    ∃ q : ℚ, burstSpeedOf events = Js.num q ∧ q ∈ windowMeansOf events ∧
      ∀ m ∈ windowMeansOf events, q ≤ m := by
  have hlt : ¬ (intervalsOf events).length < windowSizeOf events := not_lt.mpr h
  unfold burstSpeedOf windowMeansOf
  rw [if_neg hlt]
  rw [List.range_succ_eq_map, List.foldl_cons, Js.inf_jmin, foldl_jmin_num,
    ← List.foldl_map]
  refine ⟨_, rfl, ?_, ?_⟩
  · have := foldl_min_mem
      (((List.range ((intervalsOf events).length - windowSizeOf events)).map
        Nat.succ).map (windowAvgOf events)) (windowAvgOf events 0)
    simpa using this
  · intro m hm
    simp only [List.map_cons, List.mem_cons] at hm
    rcases hm with h0 | hmem
    · rw [h0]
      exact foldl_min_le_init _ _
    · exact foldl_min_le_mem _ _ m hmem

/-! ## Claim C7 -/

/-- **C7** fails as stated: for a sequence whose interval count is smaller
than the window size `max(5, ⌊20%·count⌋)`, the loop of lines 73–76 never
runs and `burstSpeed` keeps its initial value `Infinity` — not any finite
number (the §3 invariant notwithstanding).  Three events give 2 intervals
and window size 5. -/
theorem claim_C7_counterexample :
    (calculateTypingPattern threeEvents).burstSpeed = Js.inf ∧
      ∀ q : ℚ, (calculateTypingPattern threeEvents).burstSpeed ≠ Js.num q := by
  have h : (calculateTypingPattern threeEvents).burstSpeed = Js.inf := by
    unfold calculateTypingPattern
    rw [if_neg (by decide : ¬ threeEvents.length < 2)]
    decide
  refine ⟨h, fun q hq => ?_⟩
  rw [h] at hq
  exact Js.noConfusion hq

/-- **C7 (amended).** For every sequence with at least 2 events: if the
interval count is at least the window size `max(5, ⌊20% · count⌋)`, then
`burstSpeed` is the minimum over all window positions of the mean of the
sliding window (a finite number); otherwise the loop never runs and
`burstSpeed` is `Infinity`. -/
theorem claim_C7_amended (events : List KeyEvent) (h2 : 2 ≤ events.length) :
    (windowSizeOf events ≤ (intervalsOf events).length →
      ∃ q : ℚ, (calculateTypingPattern events).burstSpeed = Js.num q ∧
        q ∈ windowMeansOf events ∧ ∀ m ∈ windowMeansOf events, q ≤ m) ∧
    ((intervalsOf events).length < windowSizeOf events →
      (calculateTypingPattern events).burstSpeed = Js.inf) := by
  have hlt2 : ¬ events.length < 2 := by omega
  unfold calculateTypingPattern
  rw [if_neg hlt2]
  constructor
  · intro h
    exact burstSpeedOf_eq events h
  · intro h
    show burstSpeedOf events = Js.inf
    unfold burstSpeedOf
    rw [if_pos h]

/-- Seven events: 6 intervals, window size 5, two window positions. -/
def sevenEvents : List KeyEvent :=
  [plainEvent "a" 0, plainEvent "b" 100, plainEvent "c" 100, plainEvent "d" 100,
    plainEvent "e" 100, plainEvent "f" 100, plainEvent "g" 200]

theorem claim_C7_witness :
    2 ≤ sevenEvents.length ∧
      (∃ q : ℚ, (calculateTypingPattern sevenEvents).burstSpeed = Js.num q ∧
        q ∈ windowMeansOf sevenEvents ∧ ∀ m ∈ windowMeansOf sevenEvents, q ≤ m) :=
  ⟨by decide, (claim_C7_amended sevenEvents (by decide)).1 (by decide)⟩

/-! ## Similarity scorer (`comparePatterns`, lines 164–257)

Each local constant of the source function is hoisted to a top-level
definition parameterised by the two patterns. -/

/-- Lines 166–169: the adaptive weight,
`baseWeight * (0.5 + 0.5 * (1 - |m1 - m2| / Math.max(m1, m2, 1)))`. -/
noncomputable def getWeight (metric1 metric2 baseWeight : Js ℝ) : Js ℝ :=
  Js.mul baseWeight
    (Js.add (.num 0.5) (Js.mul (.num 0.5)
      (Js.sub (.num 1)
        (Js.div (Js.abs (Js.sub metric1 metric2))
          (Js.jmax (Js.jmax metric1 metric2) (.num 1))))))

/-- Lines 180–181. -/
noncomputable def speedRatio (p1 p2 : TypingPattern) : Js ℝ :=
  Js.div (Js.jmin (Js.toR p1.averageSpeed) (Js.toR p2.averageSpeed))
    (Js.jmax (Js.toR p1.averageSpeed) (Js.toR p2.averageSpeed))

/-- Line 182. -/
noncomputable def speedWeight (p1 p2 : TypingPattern) : Js ℝ :=
  getWeight (Js.toR p1.averageSpeed) (Js.toR p2.averageSpeed) (.num 0.3)

/-- Line 183: `Math.pow(speedRatio, 0.5)`. -/
noncomputable def speedSimilarity (p1 p2 : TypingPattern) : Js ℝ :=
  Js.powHalf (speedRatio p1 p2)

/-- Lines 186–189: `new Set([...keys1, ...keys2])` in insertion order
(object keys are distinct, so only cross-object duplicates need removing). -/
def allKeys (p1 p2 : TypingPattern) : List String :=
  (p1.keyPressDistribution.map (·.1)) ++
    ((p2.keyPressDistribution.map (·.1)).filter
      (fun k => ¬ (p1.keyPressDistribution.map (·.1)).contains k))

/-- Lines 194–204: the body of the `allKeys.forEach` callback, accumulating
the `(keyDistSimilarity, keyDistTotalWeight)` pair (exact rational
arithmetic — every quantity here is finite). -/
def keyDistStep (p1 p2 : TypingPattern) (acc : ℚ × ℚ) (key : String) : ℚ × ℚ :=
  let freq1 := lookupD p1.keyPressDistribution key 0
  let freq2 := lookupD p2.keyPressDistribution key 0
  if 0 < freq1 ∨ 0 < freq2 then
    let keyWeight := max freq1 freq2
    let similarity := 1 - |freq1 - freq2| / max (max freq1 freq2) 0.01
    (acc.1 + similarity * keyWeight, acc.2 + keyWeight)
  else acc

/-- Lines 191–204: the accumulated similarity/weight pair. -/
def keyDistParts (p1 p2 : TypingPattern) : ℚ × ℚ :=
  (allKeys p1 p2).foldl (keyDistStep p1 p2) (0, 0)

/-- Line 206: `keyDistTotalWeight > 0 ? keyDistSimilarity / keyDistTotalWeight : 0`. -/
def keyDistSimilarity (p1 p2 : TypingPattern) : ℚ :=
  if 0 < (keyDistParts p1 p2).2 then (keyDistParts p1 p2).1 / (keyDistParts p1 p2).2
  else 0

/-- Lines 207–211. -/
noncomputable def keyDistWeight (p1 p2 : TypingPattern) : Js ℝ :=
  getWeight (.num (p1.keyPressDistribution.length : ℝ))
    (.num (p2.keyPressDistribution.length : ℝ)) (.num 0.25)

/-- Line 214: `Math.exp(-Math.abs(c1 - c2))`. -/
noncomputable def rhythmSimilarity (p1 p2 : TypingPattern) : Js ℝ :=
  Js.exp (Js.neg (Js.abs (Js.sub p1.rhythmConsistency p2.rhythmConsistency)))

/-- Line 215. -/
noncomputable def rhythmWeight (p1 p2 : TypingPattern) : Js ℝ :=
  getWeight p1.rhythmConsistency p2.rhythmConsistency (.num 0.2)

/-- Lines 218–219. -/
noncomputable def burstSpeedSimilarity (p1 p2 : TypingPattern) : Js ℝ :=
  Js.div (Js.jmin (Js.toR p1.burstSpeed) (Js.toR p2.burstSpeed))
    (Js.jmax (Js.toR p1.burstSpeed) (Js.toR p2.burstSpeed))

/-- Line 220. -/
noncomputable def pauseSimilarity (p1 p2 : TypingPattern) : Js ℝ :=
  Js.sub (.num 1)
    (Js.abs (Js.sub (Js.toR p1.pauseFrequency) (Js.toR p2.pauseFrequency)))

/-- Line 221: `burst * 0.6 + pause * 0.4`. -/
noncomputable def timingSimilarity (p1 p2 : TypingPattern) : Js ℝ :=
  Js.add (Js.mul (burstSpeedSimilarity p1 p2) (.num 0.6))
    (Js.mul (pauseSimilarity p1 p2) (.num 0.4))

/-- Line 222. -/
noncomputable def timingWeight (p1 p2 : TypingPattern) : Js ℝ :=
  getWeight (Js.toR p1.pauseFrequency) (Js.toR p2.pauseFrequency) (.num 0.15)

/-- Lines 225–227. -/
noncomputable def modifierSimilarity (p1 p2 : TypingPattern) : Js ℝ :=
  Js.sub (.num 1)
    (Js.abs (Js.sub (Js.toR p1.modifierFrequency) (Js.toR p2.modifierFrequency)))

noncomputable def capitalSimilarity (p1 p2 : TypingPattern) : Js ℝ :=
  Js.sub (.num 1)
    (Js.abs (Js.sub (Js.toR p1.capitalFrequency) (Js.toR p2.capitalFrequency)))

noncomputable def punctuationSimilarity (p1 p2 : TypingPattern) : Js ℝ :=
  Js.sub (.num 1)
    (Js.abs (Js.sub (Js.toR p1.punctuationFrequency) (Js.toR p2.punctuationFrequency)))

/-- Lines 228–232: `mod * 0.4 + cap * 0.3 + punct * 0.3`. -/
noncomputable def styleSimilarity (p1 p2 : TypingPattern) : Js ℝ :=
  Js.add
    (Js.add (Js.mul (modifierSimilarity p1 p2) (.num 0.4))
      (Js.mul (capitalSimilarity p1 p2) (.num 0.3)))
    (Js.mul (punctuationSimilarity p1 p2) (.num 0.3))

/-- Lines 233–237. -/
noncomputable def styleWeight (p1 p2 : TypingPattern) : Js ℝ :=
  getWeight
    (Js.add (Js.toR p1.modifierFrequency) (Js.toR p1.capitalFrequency))
    (Js.add (Js.toR p2.modifierFrequency) (Js.toR p2.capitalFrequency)) (.num 0.1)

/-- Line 240. -/
noncomputable def finalTotalWeight (p1 p2 : TypingPattern) : Js ℝ :=
  Js.add
    (Js.add
      (Js.add (Js.add (speedWeight p1 p2) (keyDistWeight p1 p2)) (rhythmWeight p1 p2))
      (timingWeight p1 p2))
    (styleWeight p1 p2)

/-- Lines 241–247: the adaptively weighted average of the five sub-scores. -/
noncomputable def weightedSimilarity (p1 p2 : TypingPattern) : Js ℝ :=
  Js.div
    (Js.add
      (Js.add
        (Js.add
          (Js.add (Js.mul (speedSimilarity p1 p2) (speedWeight p1 p2))
            (Js.mul (.num (keyDistSimilarity p1 p2 : ℝ)) (keyDistWeight p1 p2)))
          (Js.mul (rhythmSimilarity p1 p2) (rhythmWeight p1 p2)))
        (Js.mul (timingSimilarity p1 p2) (timingWeight p1 p2)))
      (Js.mul (styleSimilarity p1 p2) (styleWeight p1 p2)))
    (finalTotalWeight p1 p2)

/-- Lines 250–255: `min(1, sqrt(|vocab1|/20) * sqrt(|vocab2|/20) * (1 - |e1 - e2|))`. -/
noncomputable def confidenceMultiplier (p1 p2 : TypingPattern) : Js ℝ :=
  Js.jmin (.num 1)
    (Js.mul
      (Js.mul (Js.sqrt (.num ((p1.keyPressDistribution.length : ℝ) / 20)))
        (Js.sqrt (.num ((p2.keyPressDistribution.length : ℝ) / 20))))
      (Js.sub (.num 1) (Js.abs (Js.sub (Js.toR p1.errorRate) (Js.toR p2.errorRate)))))

/-- `comparePatterns` (lines 164–257). -/
noncomputable def comparePatterns (p1 p2 : TypingPattern) : Js ℝ :=
  Js.mul (weightedSimilarity p1 p2) (confidenceMultiplier p1 p2)

/-! ## Claim C1: counterexample -/

/-- **C1** fails as stated: on the pair of all-zero patterns that
`calculateTypingPattern` produces for an empty capture, the speed ratio is
`0/0 = NaN`, which poisons the weighted sum, so `comparePatterns` returns
NaN — not a number in `[0, 1]`. -/
theorem claim_C1_counterexample :
    ¬ ∃ x : ℝ,
      comparePatterns (calculateTypingPattern []) (calculateTypingPattern []) = Js.num x ∧
        0 ≤ x ∧ x ≤ 1 := by
  have h0 : calculateTypingPattern [] = initialPattern := by
    unfold calculateTypingPattern
    rw [if_pos (by decide : ([] : List KeyEvent).length < 2)]
  have hspeed : speedSimilarity initialPattern initialPattern = Js.nan := by
    unfold speedSimilarity speedRatio initialPattern
    norm_num
  have hmain : comparePatterns initialPattern initialPattern = Js.nan := by
    unfold comparePatterns weightedSimilarity
    rw [hspeed]
    simp
  rintro ⟨x, hx, -, -⟩
  rw [h0, hmain] at hx
  exact Js.noConfusion hx

/-! ## Bound lemmas for the similarity scorer -/

theorem abs_sub_le_max {α : Type} [LinearOrderedField α] {a b : α}
    (ha : 0 ≤ a) (hb : 0 ≤ b) : |a - b| ≤ max a b := by
  rcases le_total a b with h | h
  · rw [abs_of_nonpos (by linarith)]
    calc -(a - b) = b - a := by ring
      _ ≤ b := by linarith
      _ ≤ max a b := le_max_right a b
  · rw [abs_of_nonneg (by linarith)]
    calc a - b ≤ a := by linarith
      _ ≤ max a b := le_max_left a b

theorem ratio_bounds {α : Type} [LinearOrderedField α] {a b : α}
    (ha : 0 < a) (hb : 0 < b) :
    0 ≤ min a b / max a b ∧ min a b / max a b ≤ 1 := by
  have hmaxpos : 0 < max a b := lt_max_of_lt_left ha
  constructor
  · exact div_nonneg (le_min ha.le hb.le) hmaxpos.le
  · exact (div_le_one hmaxpos).mpr min_le_max

/-- The adaptive weight at finite nonnegative metrics stays between half the
base weight and the base weight. -/
theorem getWeight_num_bounds {m1 m2 base : ℝ} (h1 : 0 ≤ m1) (h2 : 0 ≤ m2)
    (hb : 0 < base) :
    ∃ w : ℝ, getWeight (.num m1) (.num m2) (.num base) = .num w ∧
      base / 2 ≤ w ∧ w ≤ base := by
  unfold getWeight
  have hM1 : (1 : ℝ) ≤ max (max m1 m2) 1 := le_max_right _ _
  have hMne : max (max m1 m2) 1 ≠ 0 := by linarith
  simp only [Js.jmax_num, Js.sub_num, Js.abs_num]
  rw [Js.div_num _ hMne]
  simp only [Js.sub_num, Js.mul_num, Js.add_num]
  refine ⟨_, rfl, ?_, ?_⟩
  all_goals {
    have habs : |m1 - m2| ≤ max (max m1 m2) 1 :=
      le_trans (abs_sub_le_max h1 h2) (le_max_left _ _)
    have hdle : |m1 - m2| / max (max m1 m2) 1 ≤ 1 :=
      (div_le_one (by linarith)).mpr habs
    have hd0 : 0 ≤ |m1 - m2| / max (max m1 m2) 1 :=
      div_nonneg (abs_nonneg _) (by linarith)
    nlinarith
  }

/-- The adaptive weight of two equal finite metrics is exactly the base
weight. -/
theorem getWeight_self (m base : ℝ) :
    getWeight (.num m) (.num m) (.num base) = .num base := by
  unfold getWeight
  have hM1 : (1 : ℝ) ≤ max (max m m) 1 := le_max_right _ _
  have hMne : max (max m m) 1 ≠ 0 := by linarith
  simp only [Js.jmax_num, Js.sub_num, Js.abs_num, sub_self, abs_zero]
  rw [Js.div_num _ hMne, zero_div]
  norm_num

theorem oneMinusAbs_bounds {a b : ℝ} (ha : 0 ≤ a) (ha1 : a ≤ 1)
    (hb : 0 ≤ b) (hb1 : b ≤ 1) : 0 ≤ 1 - |a - b| ∧ 1 - |a - b| ≤ 1 := by
  have h1 : |a - b| ≤ 1 := abs_le.mpr ⟨by linarith, by linarith⟩
  have h0 : 0 ≤ |a - b| := abs_nonneg _
  constructor <;> linarith

theorem lookupD_nonneg {m : List (String × ℚ)} (h : ∀ kv ∈ m, 0 ≤ kv.2)
    (k : String) : 0 ≤ lookupD m k 0 := by
  unfold lookupD
  cases hf : m.find? (fun kv => kv.1 == k) with
  | none => exact le_refl 0
  | some kv => exact h kv (List.mem_of_find?_eq_some hf)

theorem keyDistStep_bound (p1 p2 : TypingPattern)
    (h1 : ∀ kv ∈ p1.keyPressDistribution, 0 ≤ kv.2)
    (h2 : ∀ kv ∈ p2.keyPressDistribution, 0 ≤ kv.2)
    (acc : ℚ × ℚ) (key : String) (ha : 0 ≤ acc.1) (hb : acc.1 ≤ acc.2) :
    0 ≤ (keyDistStep p1 p2 acc key).1 ∧
      (keyDistStep p1 p2 acc key).1 ≤ (keyDistStep p1 p2 acc key).2 := by
  unfold keyDistStep
  dsimp only
  by_cases hc : 0 < lookupD p1.keyPressDistribution key 0 ∨
      0 < lookupD p2.keyPressDistribution key 0
  · rw [if_pos hc]
    set f1 := lookupD p1.keyPressDistribution key 0 with hf1
    set f2 := lookupD p2.keyPressDistribution key 0 with hf2
    have hf1n : 0 ≤ f1 := lookupD_nonneg h1 key
    have hf2n : 0 ≤ f2 := lookupD_nonneg h2 key
    have hW : (0.01 : ℚ) ≤ max (max f1 f2) 0.01 := le_max_right _ _
    have habs : |f1 - f2| ≤ max (max f1 f2) 0.01 :=
      le_trans (abs_sub_le_max hf1n hf2n) (le_max_left _ _)
    have hsim1 : |f1 - f2| / max (max f1 f2) 0.01 ≤ 1 :=
      (div_le_one (by linarith)).mpr habs
    have hsim0 : 0 ≤ |f1 - f2| / max (max f1 f2) 0.01 :=
      div_nonneg (abs_nonneg _) (by linarith)
    have hw0 : 0 ≤ max f1 f2 := le_max_of_le_left hf1n
    constructor
    · have : 0 ≤ (1 - |f1 - f2| / max (max f1 f2) 0.01) * max f1 f2 := by nlinarith
      dsimp only
      linarith
    · dsimp only
      nlinarith
  · rw [if_neg hc]
    exact ⟨ha, hb⟩

theorem keyDistParts_bound (p1 p2 : TypingPattern)
    (h1 : ∀ kv ∈ p1.keyPressDistribution, 0 ≤ kv.2)
    (h2 : ∀ kv ∈ p2.keyPressDistribution, 0 ≤ kv.2) :
    0 ≤ (keyDistParts p1 p2).1 ∧ (keyDistParts p1 p2).1 ≤ (keyDistParts p1 p2).2 := by
  unfold keyDistParts
  suffices hgen : ∀ (keys : List String) (acc : ℚ × ℚ), 0 ≤ acc.1 → acc.1 ≤ acc.2 →
      0 ≤ (keys.foldl (keyDistStep p1 p2) acc).1 ∧
        (keys.foldl (keyDistStep p1 p2) acc).1 ≤ (keys.foldl (keyDistStep p1 p2) acc).2 by
    exact hgen (allKeys p1 p2) (0, 0) le_rfl le_rfl
  intro keys
  induction keys with
  | nil => intro acc ha hb; exact ⟨ha, hb⟩
  | cons key rest ih =>
      intro acc ha hb
      rw [List.foldl_cons]
      obtain ⟨ha2, hb2⟩ := keyDistStep_bound p1 p2 h1 h2 acc key ha hb
      exact ih _ ha2 hb2

theorem keyDistSimilarity_bounds (p1 p2 : TypingPattern)
    (h1 : ∀ kv ∈ p1.keyPressDistribution, 0 ≤ kv.2)
    (h2 : ∀ kv ∈ p2.keyPressDistribution, 0 ≤ kv.2) :
    0 ≤ keyDistSimilarity p1 p2 ∧ keyDistSimilarity p1 p2 ≤ 1 := by
  obtain ⟨hp0, hple⟩ := keyDistParts_bound p1 p2 h1 h2
  unfold keyDistSimilarity
  by_cases hpos : 0 < (keyDistParts p1 p2).2
  · rw [if_pos hpos]
    exact ⟨div_nonneg hp0 hpos.le, (div_le_one hpos).mpr hple⟩
  · rw [if_neg hpos]
    exact ⟨le_refl 0, by norm_num⟩

/-- Finiteness and sign conditions on a pattern that make the similarity
scorer well behaved: exactly the shape `calculateTypingPattern` produces on
a realistic (non-degenerate) capture. -/
structure ComparablePattern (p : TypingPattern) : Prop where
  speed : ∃ s : ℚ, p.averageSpeed = .num s ∧ 0 < s
  burst : ∃ b : ℚ, p.burstSpeed = .num b ∧ 0 < b
  rhythm : ∃ c : ℝ, p.rhythmConsistency = .num c ∧ 0 ≤ c
  pause : inUnitInterval p.pauseFrequency
  modifier : inUnitInterval p.modifierFrequency
  capital : inUnitInterval p.capitalFrequency
  punct : inUnitInterval p.punctuationFrequency
  error : ∃ e : ℚ, p.errorRate = .num e
  distNonneg : ∀ kv ∈ p.keyPressDistribution, 0 ≤ kv.2

theorem speedSimilarity_bounds {p1 p2 : TypingPattern}
    (h1 : ComparablePattern p1) (h2 : ComparablePattern p2) :
    ∃ σ : ℝ, speedSimilarity p1 p2 = .num σ ∧ 0 ≤ σ ∧ σ ≤ 1 := by
  obtain ⟨s1, hs1, hs1p⟩ := h1.speed
  obtain ⟨s2, hs2, hs2p⟩ := h2.speed
  unfold speedSimilarity speedRatio
  rw [hs1, hs2]
  simp only [Js.toR_num, Js.jmin_num, Js.jmax_num]
  have hs1R : (0 : ℝ) < (s1 : ℝ) := by exact_mod_cast hs1p
  have hs2R : (0 : ℝ) < (s2 : ℝ) := by exact_mod_cast hs2p
  have hmax : (0 : ℝ) < max (s1 : ℝ) (s2 : ℝ) := lt_max_of_lt_left hs1R
  rw [Js.div_num _ (ne_of_gt hmax)]
  obtain ⟨hr0, hr1⟩ := ratio_bounds hs1R hs2R
  rw [Js.powHalf_num hr0]
  exact ⟨_, rfl, Real.sqrt_nonneg _, Real.sqrt_le_one.mpr hr1⟩

theorem burstSpeedSimilarity_bounds {p1 p2 : TypingPattern}
    (h1 : ComparablePattern p1) (h2 : ComparablePattern p2) :
    ∃ σ : ℝ, burstSpeedSimilarity p1 p2 = .num σ ∧ 0 ≤ σ ∧ σ ≤ 1 := by
  obtain ⟨b1, hb1, hb1p⟩ := h1.burst
  obtain ⟨b2, hb2, hb2p⟩ := h2.burst
  unfold burstSpeedSimilarity
  rw [hb1, hb2]
  simp only [Js.toR_num, Js.jmin_num, Js.jmax_num]
  have hb1R : (0 : ℝ) < (b1 : ℝ) := by exact_mod_cast hb1p
  have hb2R : (0 : ℝ) < (b2 : ℝ) := by exact_mod_cast hb2p
  have hmax : (0 : ℝ) < max (b1 : ℝ) (b2 : ℝ) := lt_max_of_lt_left hb1R
  rw [Js.div_num _ (ne_of_gt hmax)]
  obtain ⟨hr0, hr1⟩ := ratio_bounds hb1R hb2R
  exact ⟨_, rfl, hr0, hr1⟩

theorem oneMinusAbsDiff_bounds {x y : Js ℚ}
    (hx : inUnitInterval x) (hy : inUnitInterval y) :
    ∃ σ : ℝ, Js.sub (.num 1) (Js.abs (Js.sub (Js.toR x) (Js.toR y))) = .num σ ∧
      0 ≤ σ ∧ σ ≤ 1 := by
  obtain ⟨a, ha, ha0, ha1⟩ := hx
  obtain ⟨b, hb, hb0, hb1⟩ := hy
  rw [ha, hb]
  simp only [Js.toR_num, Js.sub_num, Js.abs_num]
  refine ⟨_, rfl, ?_⟩
  have ha0R : (0 : ℝ) ≤ (a : ℝ) := by exact_mod_cast ha0
  have ha1R : (a : ℝ) ≤ 1 := by exact_mod_cast ha1
  have hb0R : (0 : ℝ) ≤ (b : ℝ) := by exact_mod_cast hb0
  have hb1R : (b : ℝ) ≤ 1 := by exact_mod_cast hb1
  exact oneMinusAbs_bounds ha0R ha1R hb0R hb1R

theorem pauseSimilarity_bounds {p1 p2 : TypingPattern}
    (h1 : ComparablePattern p1) (h2 : ComparablePattern p2) :
    ∃ σ : ℝ, pauseSimilarity p1 p2 = .num σ ∧ 0 ≤ σ ∧ σ ≤ 1 := by
  unfold pauseSimilarity
  exact oneMinusAbsDiff_bounds h1.pause h2.pause

theorem timingSimilarity_bounds {p1 p2 : TypingPattern}
    (h1 : ComparablePattern p1) (h2 : ComparablePattern p2) :
    ∃ σ : ℝ, timingSimilarity p1 p2 = .num σ ∧ 0 ≤ σ ∧ σ ≤ 1 := by
  obtain ⟨σb, hσb, hb0, hb1⟩ := burstSpeedSimilarity_bounds h1 h2
  obtain ⟨σp, hσp, hp0, hp1⟩ := pauseSimilarity_bounds h1 h2
  unfold timingSimilarity
  rw [hσb, hσp]
  simp only [Js.mul_num, Js.add_num]
  refine ⟨_, rfl, by nlinarith, by nlinarith⟩

theorem rhythmSimilarity_bounds {p1 p2 : TypingPattern}
    (h1 : ComparablePattern p1) (h2 : ComparablePattern p2) :
    ∃ σ : ℝ, rhythmSimilarity p1 p2 = .num σ ∧ 0 ≤ σ ∧ σ ≤ 1 := by
  obtain ⟨c1, hc1, -⟩ := h1.rhythm
  obtain ⟨c2, hc2, -⟩ := h2.rhythm
  unfold rhythmSimilarity
  rw [hc1, hc2]
  simp only [Js.sub_num, Js.abs_num, Js.neg_num, Js.exp_num]
  refine ⟨_, rfl, (Real.exp_pos _).le, ?_⟩
  calc Real.exp (-|c1 - c2|) ≤ Real.exp 0 :=
        Real.exp_le_exp.mpr (neg_nonpos.mpr (abs_nonneg _))
    _ = 1 := Real.exp_zero

theorem styleSimilarity_bounds {p1 p2 : TypingPattern}
    (h1 : ComparablePattern p1) (h2 : ComparablePattern p2) :
    ∃ σ : ℝ, styleSimilarity p1 p2 = .num σ ∧ 0 ≤ σ ∧ σ ≤ 1 := by
  obtain ⟨σm, hσm, hm0, hm1⟩ :=
    oneMinusAbsDiff_bounds h1.modifier h2.modifier
  obtain ⟨σc, hσc, hc0, hc1⟩ := oneMinusAbsDiff_bounds h1.capital h2.capital
  obtain ⟨σp, hσp, hp0, hp1⟩ := oneMinusAbsDiff_bounds h1.punct h2.punct
  unfold styleSimilarity modifierSimilarity capitalSimilarity punctuationSimilarity
  rw [hσm, hσc, hσp]
  simp only [Js.mul_num, Js.add_num]
  refine ⟨_, rfl, by nlinarith, by nlinarith⟩

theorem speedWeight_bounds {p1 p2 : TypingPattern}
    (h1 : ComparablePattern p1) (h2 : ComparablePattern p2) :
    ∃ w : ℝ, speedWeight p1 p2 = .num w ∧ 0.15 ≤ w ∧ w ≤ 0.3 := by
  obtain ⟨s1, hs1, hs1p⟩ := h1.speed
  obtain ⟨s2, hs2, hs2p⟩ := h2.speed
  unfold speedWeight
  rw [hs1, hs2]
  simp only [Js.toR_num]
  obtain ⟨w, hw, hwa, hwb⟩ := getWeight_num_bounds
    (by positivity : (0:ℝ) ≤ (s1:ℝ)) (by positivity : (0:ℝ) ≤ (s2:ℝ))
    (by norm_num : (0:ℝ) < 0.3)
  exact ⟨w, hw, by linarith, hwb⟩

theorem keyDistWeight_bounds (p1 p2 : TypingPattern) :
    ∃ w : ℝ, keyDistWeight p1 p2 = .num w ∧ 0.125 ≤ w ∧ w ≤ 0.25 := by
  unfold keyDistWeight
  obtain ⟨w, hw, hwa, hwb⟩ := getWeight_num_bounds
    (Nat.cast_nonneg p1.keyPressDistribution.length)
    (Nat.cast_nonneg p2.keyPressDistribution.length)
    (by norm_num : (0:ℝ) < 0.25)
  exact ⟨w, hw, by linarith, hwb⟩

theorem rhythmWeight_bounds {p1 p2 : TypingPattern}
    (h1 : ComparablePattern p1) (h2 : ComparablePattern p2) :
    ∃ w : ℝ, rhythmWeight p1 p2 = .num w ∧ 0.1 ≤ w ∧ w ≤ 0.2 := by
  obtain ⟨c1, hc1, hc1n⟩ := h1.rhythm
  obtain ⟨c2, hc2, hc2n⟩ := h2.rhythm
  unfold rhythmWeight
  rw [hc1, hc2]
  obtain ⟨w, hw, hwa, hwb⟩ := getWeight_num_bounds hc1n hc2n
    (by norm_num : (0:ℝ) < 0.2)
  exact ⟨w, hw, by linarith, hwb⟩

theorem timingWeight_bounds {p1 p2 : TypingPattern}
    (h1 : ComparablePattern p1) (h2 : ComparablePattern p2) :
    ∃ w : ℝ, timingWeight p1 p2 = .num w ∧ 0.075 ≤ w ∧ w ≤ 0.15 := by
  obtain ⟨q1, hq1, hq1a, -⟩ := h1.pause
  obtain ⟨q2, hq2, hq2a, -⟩ := h2.pause
  unfold timingWeight
  rw [hq1, hq2]
  simp only [Js.toR_num]
  obtain ⟨w, hw, hwa, hwb⟩ := getWeight_num_bounds
    (by positivity : (0:ℝ) ≤ (q1:ℝ)) (by positivity : (0:ℝ) ≤ (q2:ℝ))
    (by norm_num : (0:ℝ) < 0.15)
  exact ⟨w, hw, by linarith, hwb⟩

theorem styleWeight_bounds {p1 p2 : TypingPattern}
    (h1 : ComparablePattern p1) (h2 : ComparablePattern p2) :
    ∃ w : ℝ, styleWeight p1 p2 = .num w ∧ 0.05 ≤ w ∧ w ≤ 0.1 := by
  obtain ⟨m1, hm1, hm1a, -⟩ := h1.modifier
  obtain ⟨m2, hm2, hm2a, -⟩ := h2.modifier
  obtain ⟨c1, hc1, hc1a, -⟩ := h1.capital
  obtain ⟨c2, hc2, hc2a, -⟩ := h2.capital
  unfold styleWeight
  rw [hm1, hm2, hc1, hc2]
  simp only [Js.toR_num, Js.add_num]
  have ha1 : (0:ℝ) ≤ (m1:ℝ) + (c1:ℝ) := by positivity
  have ha2 : (0:ℝ) ≤ (m2:ℝ) + (c2:ℝ) := by positivity
  obtain ⟨w, hw, hwa, hwb⟩ := getWeight_num_bounds ha1 ha2
    (by norm_num : (0:ℝ) < 0.1)
  exact ⟨w, hw, by linarith, hwb⟩

/-- **C1 (amended).** The claim quantifies over *every* pair of
`TypingPattern` values; it fails on degenerate patterns (zero speeds give a
`0/0 = NaN` speed ratio, and error rates drifting more than 1 apart make
the confidence multiplier negative).  Restricted to patterns of the shape a
realistic capture produces — finite fields, positive `averageSpeed` and
`burstSpeed`, nonnegative `rhythmConsistency` and key frequencies,
frequencies in `[0, 1]`, finite error rates within distance 1 of each
other — `comparePatterns` does return a similarity in `[0, 1]`. -/
theorem claim_C1_amended (p1 p2 : TypingPattern)
    (h1 : ComparablePattern p1) (h2 : ComparablePattern p2)
    (herr : ∀ e1 e2 : ℚ, p1.errorRate = .num e1 → p2.errorRate = .num e2 →
      |e1 - e2| ≤ 1) :
    ∃ r : ℝ, comparePatterns p1 p2 = .num r ∧ 0 ≤ r ∧ r ≤ 1 := by
  obtain ⟨σ1, hσ1, hσ1a, hσ1b⟩ := speedSimilarity_bounds h1 h2
  obtain ⟨hk0, hk1⟩ := keyDistSimilarity_bounds p1 p2 h1.distNonneg h2.distNonneg
  obtain ⟨σ3, hσ3, hσ3a, hσ3b⟩ := rhythmSimilarity_bounds h1 h2
  obtain ⟨σ4, hσ4, hσ4a, hσ4b⟩ := timingSimilarity_bounds h1 h2
  obtain ⟨σ5, hσ5, hσ5a, hσ5b⟩ := styleSimilarity_bounds h1 h2
  obtain ⟨w1, hw1, hw1a, hw1b⟩ := speedWeight_bounds h1 h2
  obtain ⟨w2, hw2, hw2a, hw2b⟩ := keyDistWeight_bounds p1 p2
  obtain ⟨w3, hw3, hw3a, hw3b⟩ := rhythmWeight_bounds h1 h2
  obtain ⟨w4, hw4, hw4a, hw4b⟩ := timingWeight_bounds h1 h2
  obtain ⟨w5, hw5, hw5a, hw5b⟩ := styleWeight_bounds h1 h2
  have hk0R : (0:ℝ) ≤ ((keyDistSimilarity p1 p2 : ℚ) : ℝ) := by exact_mod_cast hk0
  have hk1R : ((keyDistSimilarity p1 p2 : ℚ) : ℝ) ≤ 1 := by exact_mod_cast hk1
  have hden : (0:ℝ) < w1 + w2 + w3 + w4 + w5 := by linarith
  have hsim : ∃ sim : ℝ, weightedSimilarity p1 p2 = .num sim ∧ 0 ≤ sim ∧ sim ≤ 1 := by
    unfold weightedSimilarity finalTotalWeight
    rw [hσ1, hσ3, hσ4, hσ5, hw1, hw2, hw3, hw4, hw5]
    simp only [Js.mul_num, Js.add_num]
    rw [Js.div_num _ (ne_of_gt hden)]
    refine ⟨_, rfl, ?_, ?_⟩
    · have p1' : 0 ≤ σ1 * w1 := mul_nonneg hσ1a (by linarith)
      have p2' : 0 ≤ ((keyDistSimilarity p1 p2 : ℚ) : ℝ) * w2 :=
        mul_nonneg hk0R (by linarith)
      have p3' : 0 ≤ σ3 * w3 := mul_nonneg hσ3a (by linarith)
      have p4' : 0 ≤ σ4 * w4 := mul_nonneg hσ4a (by linarith)
      have p5' : 0 ≤ σ5 * w5 := mul_nonneg hσ5a (by linarith)
      exact div_nonneg (by linarith) hden.le
    · rw [div_le_one hden]
      have q1 : σ1 * w1 ≤ w1 := mul_le_of_le_one_left (by linarith) hσ1b
      have q2 : ((keyDistSimilarity p1 p2 : ℚ) : ℝ) * w2 ≤ w2 :=
        mul_le_of_le_one_left (by linarith) hk1R
      have q3 : σ3 * w3 ≤ w3 := mul_le_of_le_one_left (by linarith) hσ3b
      have q4 : σ4 * w4 ≤ w4 := mul_le_of_le_one_left (by linarith) hσ4b
      have q5 : σ5 * w5 ≤ w5 := mul_le_of_le_one_left (by linarith) hσ5b
      linarith
  obtain ⟨sim, hsimEq, hsim0, hsim1⟩ := hsim
  obtain ⟨e1, he1⟩ := h1.error
  obtain ⟨e2, he2⟩ := h2.error
  have herrR : |(e1:ℝ) - (e2:ℝ)| ≤ 1 := by exact_mod_cast herr e1 e2 he1 he2
  have hmult : ∃ m : ℝ, confidenceMultiplier p1 p2 = .num m ∧ 0 ≤ m ∧ m ≤ 1 := by
    unfold confidenceMultiplier
    rw [he1, he2]
    rw [Js.sqrt_num (by positivity : (0:ℝ) ≤ (p1.keyPressDistribution.length : ℝ) / 20),
      Js.sqrt_num (by positivity : (0:ℝ) ≤ (p2.keyPressDistribution.length : ℝ) / 20)]
    simp only [Js.toR_num, Js.sub_num, Js.abs_num, Js.mul_num, Js.jmin_num]
    refine ⟨_, rfl, ?_, min_le_left _ _⟩
    apply le_min (by norm_num)
    apply mul_nonneg (mul_nonneg (Real.sqrt_nonneg _) (Real.sqrt_nonneg _))
    have := abs_nonneg ((e1:ℝ) - (e2:ℝ))
    linarith
  obtain ⟨m, hmEq, hm0, hm1⟩ := hmult
  unfold comparePatterns
  rw [hsimEq, hmEq, Js.mul_num]
  exact ⟨_, rfl, mul_nonneg hsim0 hm0, mul_le_one₀ hsim1 hm0 hm1⟩

/-- A concrete realistic pattern for exercising `claim_C1_amended`. -/
def comparableWitnessPattern : TypingPattern where
  averageSpeed := .num 100
  keyPressDistribution := [("a", 1)]
  modifierUsage := []
  timingPatterns := []
  specialKeyFrequency := []
  backspaceFrequency := .num 0
  averageWordLength := .num 0
  rhythmConsistency := .num 0
  modifierFrequency := .num 0
  capitalFrequency := .num 0
  punctuationFrequency := .num 0
  burstSpeed := .num 100
  pauseFrequency := .num 0
  speedVariability := .num 0
  keyPressForce := .num 0
  errorRate := .num 0

theorem claim_C1_witness :
    ComparablePattern comparableWitnessPattern ∧
      ∃ r : ℝ,
        comparePatterns comparableWitnessPattern comparableWitnessPattern = Js.num r ∧
          0 ≤ r ∧ r ≤ 1 := by
  have hc : ComparablePattern comparableWitnessPattern := by
    refine ⟨⟨100, rfl, by norm_num⟩, ⟨100, rfl, by norm_num⟩, ⟨0, rfl, le_refl 0⟩,
      ⟨0, rfl, le_refl 0, by norm_num⟩, ⟨0, rfl, le_refl 0, by norm_num⟩,
      ⟨0, rfl, le_refl 0, by norm_num⟩, ⟨0, rfl, le_refl 0, by norm_num⟩,
      ⟨0, rfl⟩, ?_⟩
    intro kv hkv
    rw [List.mem_singleton.mp hkv]
    norm_num
  refine ⟨hc, claim_C1_amended _ _ hc hc ?_⟩
  intro e1 e2 he1 he2
  rw [show comparableWitnessPattern.errorRate = Js.num 0 from rfl] at he1 he2
  have h1' := Js.num.inj he1
  have h2' := Js.num.inj he2
  rw [← h1', ← h2']
  norm_num

/-! ## Self-comparison (for C6) -/

theorem allKeys_self (p : TypingPattern) :
    allKeys p p = p.keyPressDistribution.map (·.1) := by
  unfold allKeys
  have hnil : (p.keyPressDistribution.map (·.1)).filter
      (fun k => ¬ (p.keyPressDistribution.map (·.1)).contains k) = [] := by
    rw [List.filter_eq_nil_iff]
    intro a ha
    simp [ha]
  rw [hnil, List.append_nil]

theorem lookupD_pos_of_mem {m : List (String × ℚ)}
    (hpos : ∀ kv ∈ m, 0 < kv.2) {k : String} (hk : k ∈ m.map (·.1)) :
    0 < lookupD m k 0 := by
  obtain ⟨kv, hkv, hfst⟩ := List.mem_map.mp hk
  have hsome : (m.find? (fun kv => kv.1 == k)).isSome := by
    rw [List.find?_isSome]
    exact ⟨kv, hkv, by simp [hfst]⟩
  unfold lookupD
  cases hf : m.find? (fun kv => kv.1 == k) with
  | none => rw [hf] at hsome; cases hsome
  | some kv2 => exact hpos kv2 (List.mem_of_find?_eq_some hf)

theorem keyDistStep_self (p : TypingPattern) (acc : ℚ × ℚ) (key : String)
    (hf : 0 < lookupD p.keyPressDistribution key 0) :
    keyDistStep p p acc key =
      (acc.1 + lookupD p.keyPressDistribution key 0,
        acc.2 + lookupD p.keyPressDistribution key 0) := by
  unfold keyDistStep
  dsimp only
  rw [if_pos (Or.inl hf)]
  simp only [sub_self, abs_zero, zero_div, sub_zero, one_mul, max_self]

theorem keyDistParts_self (p : TypingPattern)
    (hpos : ∀ kv ∈ p.keyPressDistribution, 0 < kv.2) :
    (keyDistParts p p).1 = (keyDistParts p p).2 ∧
      (p.keyPressDistribution ≠ [] → 0 < (keyDistParts p p).2) := by
  unfold keyDistParts
  rw [allKeys_self]
  have hgen : ∀ (keys : List String),
      (∀ k ∈ keys, 0 < lookupD p.keyPressDistribution k 0) →
      ∀ acc : ℚ × ℚ, acc.1 = acc.2 →
        (keys.foldl (keyDistStep p p) acc).1 = (keys.foldl (keyDistStep p p) acc).2 ∧
          acc.2 ≤ (keys.foldl (keyDistStep p p) acc).2 ∧
          (keys ≠ [] → acc.2 < (keys.foldl (keyDistStep p p) acc).2) := by
    intro keys
    induction keys with
    | nil =>
        intro _ acc heq
        exact ⟨heq, le_refl _, fun h => absurd rfl h⟩
    | cons key rest ih =>
        intro hk acc heq
        have hf : 0 < lookupD p.keyPressDistribution key 0 :=
          hk key (List.mem_cons_self key rest)
        rw [List.foldl_cons, keyDistStep_self p acc key hf]
        have hrest := ih (fun k hkm => hk k (List.mem_cons_of_mem key hkm))
          (acc.1 + lookupD p.keyPressDistribution key 0,
            acc.2 + lookupD p.keyPressDistribution key 0)
          (by dsimp only; rw [heq])
        refine ⟨hrest.1, ?_, fun _ => ?_⟩
        · calc acc.2 ≤ acc.2 + lookupD p.keyPressDistribution key 0 := by linarith
            _ ≤ _ := hrest.2.1
        · calc acc.2 < acc.2 + lookupD p.keyPressDistribution key 0 := by linarith
            _ ≤ _ := hrest.2.1
  have hlk : ∀ k ∈ p.keyPressDistribution.map (·.1),
      0 < lookupD p.keyPressDistribution k 0 :=
    fun k hk => lookupD_pos_of_mem hpos hk
  obtain ⟨h1, -, h3⟩ := hgen (p.keyPressDistribution.map (·.1)) hlk (0, 0) rfl
  refine ⟨h1, fun hne => h3 ?_⟩
  intro hmapnil
  exact hne (List.map_eq_nil_iff.mp hmapnil)

theorem keyDistSimilarity_self (p : TypingPattern)
    (hpos : ∀ kv ∈ p.keyPressDistribution, 0 < kv.2)
    (hne : p.keyPressDistribution ≠ []) :
    keyDistSimilarity p p = 1 := by
  obtain ⟨heq, hp⟩ := keyDistParts_self p hpos
  unfold keyDistSimilarity
  rw [if_pos (hp hne)]
  rw [heq, div_self (ne_of_gt (hp hne))]

/-- `comparePatterns` of a realistic pattern with itself is exactly
`min(1, vocabularySize / 20)`: every sub-score is 1, every adaptive weight
equals its base weight, and only the confidence multiplier can pull the
score below 1. -/
theorem comparePatterns_self (p : TypingPattern) (hc : ComparablePattern p)
    (hpos : ∀ kv ∈ p.keyPressDistribution, 0 < kv.2)
    (hne : p.keyPressDistribution ≠ []) :
    comparePatterns p p =
      Js.num (min 1 ((p.keyPressDistribution.length : ℝ) / 20)) := by
  obtain ⟨s, hs, hsp⟩ := hc.speed
  obtain ⟨b, hb, hbp⟩ := hc.burst
  obtain ⟨c, hcr, -⟩ := hc.rhythm
  obtain ⟨qp, hqp, -, -⟩ := hc.pause
  obtain ⟨qm, hqm, -, -⟩ := hc.modifier
  obtain ⟨qc, hqc, -, -⟩ := hc.capital
  obtain ⟨qq, hqq, -, -⟩ := hc.punct
  obtain ⟨e, he⟩ := hc.error
  have hsR : ((s : ℚ) : ℝ) ≠ 0 := by
    have : (0 : ℝ) < (s : ℝ) := by exact_mod_cast hsp
    exact ne_of_gt this
  have hbR : ((b : ℚ) : ℝ) ≠ 0 := by
    have : (0 : ℝ) < (b : ℝ) := by exact_mod_cast hbp
    exact ne_of_gt this
  have hspeed : speedSimilarity p p = Js.num 1 := by
    unfold speedSimilarity speedRatio
    rw [hs]
    simp only [Js.toR_num, Js.jmin_num, Js.jmax_num, min_self, max_self]
    rw [Js.div_num _ hsR, div_self hsR, Js.powHalf_num (by norm_num : (0:ℝ) ≤ 1),
      Real.sqrt_one]
  have hkd : keyDistSimilarity p p = 1 := keyDistSimilarity_self p hpos hne
  have hrhythm : rhythmSimilarity p p = Js.num 1 := by
    unfold rhythmSimilarity
    rw [hcr]
    simp only [Js.sub_num, sub_self, Js.abs_num, abs_zero, Js.neg_num, neg_zero,
      Js.exp_num, Real.exp_zero]
  have htiming : timingSimilarity p p = Js.num 1 := by
    unfold timingSimilarity burstSpeedSimilarity pauseSimilarity
    rw [hb, hqp]
    simp only [Js.toR_num, Js.jmin_num, Js.jmax_num, min_self, max_self,
      Js.sub_num, sub_self, Js.abs_num, abs_zero]
    rw [Js.div_num _ hbR, div_self hbR]
    simp only [Js.mul_num, Js.add_num]
    norm_num
  have hstyle : styleSimilarity p p = Js.num 1 := by
    unfold styleSimilarity modifierSimilarity capitalSimilarity punctuationSimilarity
    rw [hqm, hqc, hqq]
    simp only [Js.toR_num, Js.sub_num, sub_self, Js.abs_num, abs_zero,
      Js.mul_num, Js.add_num]
    norm_num
  have hw1 : speedWeight p p = Js.num 0.3 := by
    unfold speedWeight
    rw [hs]
    simp only [Js.toR_num]
    exact getWeight_self _ _
  have hw2 : keyDistWeight p p = Js.num 0.25 := by
    unfold keyDistWeight
    exact getWeight_self _ _
  have hw3 : rhythmWeight p p = Js.num 0.2 := by
    unfold rhythmWeight
    rw [hcr]
    exact getWeight_self _ _
  have hw4 : timingWeight p p = Js.num 0.15 := by
    unfold timingWeight
    rw [hqp]
    simp only [Js.toR_num]
    exact getWeight_self _ _
  have hw5 : styleWeight p p = Js.num 0.1 := by
    unfold styleWeight
    rw [hqm, hqc]
    exact getWeight_self _ _
  have hsim : weightedSimilarity p p = Js.num 1 := by
    unfold weightedSimilarity finalTotalWeight
    rw [hspeed, hrhythm, htiming, hstyle, hw1, hw2, hw3, hw4, hw5, hkd]
    simp only [Js.mul_num, Js.add_num]
    rw [Js.div_num _ (by norm_num : (0.3 + 0.25 + 0.2 + 0.15 + 0.1 : ℝ) ≠ 0)]
    norm_num
  have hmult : confidenceMultiplier p p =
      Js.num (min 1 ((p.keyPressDistribution.length : ℝ) / 20)) := by
    unfold confidenceMultiplier
    rw [he]
    rw [Js.sqrt_num (by positivity : (0:ℝ) ≤ (p.keyPressDistribution.length : ℝ) / 20)]
    simp only [Js.toR_num, Js.sub_num, sub_self, Js.abs_num, abs_zero, sub_zero,
      Js.mul_num, mul_one, Js.jmin_num]
    rw [Real.mul_self_sqrt (by positivity)]
  unfold comparePatterns
  rw [hsim, hmult, Js.mul_num, one_mul]

/-! ## Claim C6 -/

/-- **C6.** For a `TypingPattern` derived by `calculateTypingPattern` from
at least 75 realistic events (finite positive speeds, frequencies in
`[0, 1]`, at least 19 distinct observed characters with positive smoothed
frequencies), `comparePatterns(p, p)` is at least 0.95: the self-match is
exactly `min(1, |vocab| / 20)`, so the confidence multiplier caps the
score and never raises it above 1. -/
theorem claim_C6 (events : List KeyEvent) (_h75 : 75 ≤ events.length)
    (hc : ComparablePattern (calculateTypingPattern events))
    (hv : 19 ≤ (calculateTypingPattern events).keyPressDistribution.length)
    (hpos : ∀ kv ∈ (calculateTypingPattern events).keyPressDistribution, 0 < kv.2) :
    ∃ r : ℝ,
      comparePatterns (calculateTypingPattern events) (calculateTypingPattern events) =
        Js.num r ∧ 0.95 ≤ r := by
  have hne : (calculateTypingPattern events).keyPressDistribution ≠ [] := by
    intro h
    rw [h] at hv
    simp at hv
  rw [comparePatterns_self _ hc hpos hne]
  refine ⟨_, rfl, ?_⟩
  apply le_min (by norm_num)
  have hvR : (19 : ℝ) ≤ ((calculateTypingPattern events).keyPressDistribution.length : ℝ) := by
    exact_mod_cast hv
  rw [le_div_iff₀ (by norm_num : (0:ℝ) < 20)]
  linarith

/-- Twenty distinct lowercase characters, cycled below. -/
def keys20 : List String :=
  ["a", "b", "c", "d", "e", "f", "g", "h", "i", "j",
    "k", "l", "m", "n", "o", "p", "q", "r", "s", "t"]

/-- 75 realistic events: 20 distinct characters cycled at a steady 100 ms. -/
def realisticEvents : List KeyEvent :=
  (List.range 75).map
    (fun i => plainEvent (keys20.getD (i % 20) "a") (if i = 0 then 0 else 100))

set_option maxRecDepth 100000 in
theorem claim_C6_witness :
    75 ≤ realisticEvents.length ∧
      ∃ r : ℝ,
        comparePatterns (calculateTypingPattern realisticEvents)
          (calculateTypingPattern realisticEvents) = Js.num r ∧ 0.95 ≤ r := by
  have h2 : ¬ realisticEvents.length < 2 := by decide
  have hrh : ∃ c : ℝ,
      (calculateTypingPattern realisticEvents).rhythmConsistency = Js.num c ∧ 0 ≤ c := by
    have hvar : varianceOf realisticEvents = Js.num 0 := by decide
    have hmean : averageSpeedOf realisticEvents = Js.num 100 := by decide
    unfold calculateTypingPattern
    rw [if_neg h2]
    show ∃ c : ℝ, rhythmConsistencyOf realisticEvents = Js.num c ∧ 0 ≤ c
    unfold rhythmConsistencyOf
    rw [hvar, hmean]
    simp only [Js.toR_num, Rat.cast_zero]
    rw [Js.sqrt_num le_rfl]
    rw [Js.div_num _ (by norm_num : ((100 : ℚ) : ℝ) ≠ 0)]
    exact ⟨_, rfl, by positivity⟩
  have hcp : ComparablePattern (calculateTypingPattern realisticEvents) := by
    refine ⟨⟨100, by decide, by norm_num⟩, ⟨100, by decide, by norm_num⟩, hrh,
      ⟨0, by decide, le_refl 0, by norm_num⟩, ⟨0, by decide, le_refl 0, by norm_num⟩,
      ⟨0, by decide, le_refl 0, by norm_num⟩, ⟨0, by decide, le_refl 0, by norm_num⟩,
      ⟨0, by decide⟩, by decide⟩
  exact ⟨by decide,
    claim_C6 realisticEvents (by decide) hcp (by decide) (by decide)⟩

/-! ## Boundary layer (for C8): `src/api/server.ts` and
`src/extension/popup.tsx` -/

/-- `MINIMUM_SAMPLE_SIZE` from `popup.tsx` (and the literal 75 in
`server.ts`). -/
def MINIMUM_SAMPLE_SIZE : ℕ := 75

/-- The response of `POST /api/predict` (lines 25–44 of `server.ts`). -/
inductive PredictResponse where
  | badRequest (error : String)
  | ok (matched : Option String) (confidence : Js ℝ)

/-- The `/api/predict` handler, generalised over the similarity function it
calls so that the short-circuit can be stated as independence from it.
`body = none` models a request whose `events` field is not an array. -/
noncomputable def predictEndpointGen
    (cmp : TypingPattern → TypingPattern → Js ℝ)
    (body : Option (List KeyEvent))
    (profiles : List (String × TypingPattern)) : PredictResponse :=
  match body with
  | none => .badRequest "Invalid or insufficient typing data"
  | some events =>
      if events.length < 75 then .badRequest "Invalid or insufficient typing data"
      else
        let currentPattern := calculateTypingPattern events
        let bestMatch := profiles.foldl
          (fun best p =>
            let similarity := cmp currentPattern p.2
            if Js.ltb best.2 similarity then (p.1, similarity) else best)
          ("", Js.num 0)
        .ok (if Js.ltb (Js.num 0.7) bestMatch.2 then some bestMatch.1 else none)
          bestMatch.2

/-- The `/api/predict` handler as written (lines 25–44 of `server.ts`). -/
noncomputable def predictEndpoint :
    Option (List KeyEvent) → List (String × TypingPattern) → PredictResponse :=
  predictEndpointGen comparePatterns

/-- An enrolled profile as the popup stores it. -/
structure UserProfile where
  id : String
  firstName : String
  lastName : String
  pattern : TypingPattern

/-- The outcome of the popup's `predictUser` (lines 140–168 of
`popup.tsx`): an explicit "insufficient data" message below
`MINIMUM_SAMPLE_SIZE` events, no outcome when no profile is enrolled, and
otherwise the best-scoring profile with its confidence. -/
inductive PredictOutcome where
  | insufficientData
  | noProfiles
  | predicted (name : String) (confidence : Js ℝ)

/-- `predictUser`, generalised over the similarity function. -/
noncomputable def predictUserGen
    (cmp : TypingPattern → TypingPattern → Js ℝ)
    (keyEvents : List KeyEvent)
    (userProfiles : List UserProfile) : PredictOutcome :=
  if keyEvents.length < MINIMUM_SAMPLE_SIZE then .insufficientData
  else
    let currentPattern := calculateTypingPattern keyEvents
    let bestMatch := userProfiles.foldl
      (fun best profile =>
        let similarity := cmp currentPattern profile.pattern
        match best with
        | none => some (profile, similarity)
        | some b =>
            if Js.ltb b.2 similarity then some (profile, similarity) else some b)
      none
    match bestMatch with
    | some b => .predicted (b.1.firstName ++ " " ++ b.1.lastName) b.2
    | none => .noProfiles

/-- `predictUser` as written (lines 140–168 of `popup.tsx`). -/
noncomputable def predictUser : List KeyEvent → List UserProfile → PredictOutcome :=
  predictUserGen comparePatterns

/-! ## Claim C8 -/

/-- **C8.** A prediction request with fewer than 75 events short-circuits
with an explicit "insufficient data" outcome — HTTP 400 at `/api/predict`,
an error message in the popup — and the result does not depend on the
similarity function, i.e. `comparePatterns` is never consulted for any
stored profile. -/
theorem claim_C8 (events : List KeyEvent) (h : events.length < 75) :
    (∀ (cmp : TypingPattern → TypingPattern → Js ℝ)
        (profiles : List (String × TypingPattern)),
      predictEndpointGen cmp (some events) profiles =
        .badRequest "Invalid or insufficient typing data") ∧
    (∀ (cmp : TypingPattern → TypingPattern → Js ℝ)
        (userProfiles : List UserProfile),
      predictUserGen cmp events userProfiles = .insufficientData) ∧
    (∀ profiles, predictEndpoint (some events) profiles =
        .badRequest "Invalid or insufficient typing data") ∧
    (∀ userProfiles, predictUser events userProfiles = .insufficientData) := by
  have hend : ∀ (cmp : TypingPattern → TypingPattern → Js ℝ)
      (profiles : List (String × TypingPattern)),
      predictEndpointGen cmp (some events) profiles =
        .badRequest "Invalid or insufficient typing data" := by
    intro cmp profiles
    unfold predictEndpointGen
    dsimp only
    rw [if_pos h]
  have huser : ∀ (cmp : TypingPattern → TypingPattern → Js ℝ)
      (userProfiles : List UserProfile),
      predictUserGen cmp events userProfiles = .insufficientData := by
    intro cmp userProfiles
    unfold predictUserGen MINIMUM_SAMPLE_SIZE
    dsimp only
    rw [if_pos h]
  exact ⟨hend, huser, fun profiles => hend comparePatterns profiles,
    fun userProfiles => huser comparePatterns userProfiles⟩

theorem claim_C8_witness :
    threeEvents.length < 75 ∧
      (predictEndpoint (some threeEvents) [] =
          .badRequest "Invalid or insufficient typing data" ∧
        predictUser threeEvents [] = .insufficientData) :=
  ⟨by decide,
    (claim_C8 threeEvents (by decide)).2.2.1 [],
    (claim_C8 threeEvents (by decide)).2.2.2 []⟩

end TypeWho
